import Mathlib

/-! CoffeeHybrid: the customization handlers of the bot.

A shallow embedding of `Bot/src/handlers/customizationHandler.js`.  Each handler
is a function from the user's session (and the text of the incoming message) to
the session it leaves behind together with the calls it made on the way
(`setState`, `ctx.reply`, `showCustomizationOptions`, `logError`).

JavaScript strings are modelled by `String`; the built-ins the handlers call
(`toLowerCase`, `parseInt`, `String.prototype.replace` with the regular
expression `/^[✅➕]\s/`, `Array.prototype.find/some/filter/push`) are modelled
by the functions below.
-/

namespace CoffeeHybrid

/-! ## Data model -/

/-- An element of `productSchema.addOns` (`Backend/models/Product.js`).  The
price is a JavaScript number that the handlers carry around and hand to
`formatPrice`; they never compute with it. -/
structure AddOn where
  name : String
  price : Int
  deriving DecidableEq, Repr

/-- The part of a product document the handlers read.  `addOns` is optional
because the handlers guard on `!product.addOns`. -/
structure Product where
  name : String
  category : String
  addOns : Option (List AddOn)
  deriving DecidableEq, Repr

/-- The in-progress customization, `session.customization`.  A level that has
not been chosen yet is `none`. -/
structure Customization where
  size : Option String
  sugarLevel : Option String
  iceLevel : Option String
  addOns : List AddOn
  quantity : Int
  deriving DecidableEq, Repr

/-- Modelled from the spec: the session record kept by `sessionService`
(`Bot/src/services/sessionService.js`, which is not among the sources).  The
spec gives a session a current state tag and a nullable in-progress
customization; the handlers also read `session.currentProduct`.
`getUserSession` returns this record and `getState(...).state` is its tag. -/
structure Session where
  state : String
  currentProduct : Option Product
  customization : Option Customization
  deriving DecidableEq, Repr

/-- Modelled from the spec: `sessionService.setState(id, tag)` replaces the
state tag of the session and nothing else. -/
def setState (s : Session) (tag : String) : Session :=
  { s with state := tag }

/-- Helpers imported from files that are not among the sources
(`utils/helpers.js`, `handlers/menuHandler.js`).  `formatPrice` only produces
message text.  `showCustomizationOptions` renders the customization menu;
whether it also puts the session in state `customizing` cannot be read off the
handlers, so both behaviours are covered by `menuEntersCustomizing`. -/
structure Helpers where
  formatPrice : Int → String
  menuEntersCustomizing : Bool

/-- Modelled from the spec: `showCustomizationOptions(ctx, product)` shows the
menu of the `customizing` state; it does not touch the customization. -/
def showCustomizationOptions (h : Helpers) (s : Session) : Session :=
  if h.menuEntersCustomizing then setState s "customizing" else s

/-- What a handler does besides returning: the calls it makes, in order. -/
inductive Effect where
  | reply (text : String)
  | replyKeyboard (text : String) (buttons : List (List String))
  | setState (tag : String)
  | showCustomizationOptions (product : Product)
  | logError (label : String)
  deriving DecidableEq, Repr

/-- The result of running a handler: the session afterwards, the calls made,
and whether the handler ended by throwing (a rejected promise). -/
structure Outcome where
  session : Session
  effects : List Effect
  threw : Bool
  deriving DecidableEq, Repr

/-! ## JavaScript built-ins -/

/-- The characters matched by `\s` in a regular expression, which are also the
ones `parseInt` skips at the start of its argument (white space and line
terminators). -/
def isJsWhiteSpace (c : Char) : Bool :=
  decide (c.toNat ∈ [0x09, 0x0A, 0x0B, 0x0C, 0x0D, 0x20, 0xA0, 0x1680, 0x2028,
    0x2029, 0x202F, 0x205F, 0x3000, 0xFEFF]) ||
  (decide (0x2000 ≤ c.toNat) && decide (c.toNat ≤ 0x200A))

/-- The lowercase form of one character under `String.prototype.toLowerCase`,
for every character whose lowercase form contains an ASCII letter: `A`..`Z`,
U+0130 (which becomes `i` followed by U+0307) and U+212A (the Kelvin sign,
which becomes `k`).  Every other character is left as it is; its real lowercase
form has no ASCII letter in it, so comparisons of the result with ASCII words
are the same as in JavaScript. -/
def lowerChar (c : Char) : List Char :=
  if c.toNat = 0x0130 then ['i', Char.ofNat 0x0307]
  else if c.toNat = 0x212A then ['k']
  else [c.toLower]

/-- `text.toLowerCase()`. -/
def toLowerCase (text : String) : String :=
  String.mk (text.data.flatMap lowerChar)

/-- The value of a character as a digit in a radix up to 36, as `parseInt`
reads it. -/
def digitValue (c : Char) : Option Nat :=
  if '0' ≤ c ∧ c ≤ '9' then some (c.toNat - '0'.toNat)
  else if 'a' ≤ c ∧ c ≤ 'z' then some (c.toNat - 'a'.toNat + 10)
  else if 'A' ≤ c ∧ c ≤ 'Z' then some (c.toNat - 'A'.toNat + 10)
  else none

/-- Whether `c` is a digit of the given radix. -/
def isRadixDigit (radix : Nat) (c : Char) : Bool :=
  match digitValue c with
  | some v => decide (v < radix)
  | none => false

/-- The number written by a run of digits in the given radix. -/
def digitsValue (radix : Nat) (ds : List Char) : Nat :=
  ds.foldl (fun acc d => acc * radix + (digitValue d).getD 0) 0

/-- `parseInt(text)` with no radix argument; `none` stands for `NaN`.
Leading white space is skipped, one sign is read, `0x`/`0X` selects radix
16, and the longest run of digits that follows is the number; whatever comes
after that run is ignored.  JavaScript rounds a very long numeral to the
nearest double, which does not change how it compares with 1 and 6. -/
def parseInt (text : String) : Option Int :=
  let s := text.data.dropWhile isJsWhiteSpace
  let signed : Int × List Char :=
    match s with
    | '-' :: r => (-1, r)
    | '+' :: r => (1, r)
    | _ => (1, s)
  let based : Nat × List Char :=
    match signed.2 with
    | '0' :: x :: r => if x = 'x' ∨ x = 'X' then (16, r) else (10, signed.2)
    | _ => (10, signed.2)
  let ds := based.2.takeWhile (isRadixDigit based.1)
  if ds.isEmpty then none else some (signed.1 * (digitsValue based.1 ds : Int))

/-- `text.replace(/^[✅➕]\s/, '')`: a leading U+2705 or U+2795 followed by one
white-space character is removed; any other text is returned as it is. -/
def stripMark (text : String) : String :=
  match text.data with
  | m :: w :: rest =>
    if (m.toNat = 0x2705 ∨ m.toNat = 0x2795) ∧ isJsWhiteSpace w = true then String.mk rest
    else text
  | _ => text

/-! ## The handlers -/

/-- The keyboard shown for sugar and ice levels. -/
def levelButtons : List (List String) :=
  [["None", "Low"], ["Medium", "High"], ["⬅️ Back to Customization"]]

/-- The keyboard shown for quantities. -/
def quantityButtons : List (List String) :=
  [["1", "2", "3"], ["4", "5", "6"], ["⬅️ Back to Customization"]]

/-- The local `validLevels` of `handleLevelSelection`. -/
def validLevels : List String := ["none", "low", "medium", "high"]

/-- The handler `handleSugarLevel`. -/
def handleSugarLevel (s : Session) : Outcome :=
  { session := setState s "selecting_sugar"
    effects := [.setState "selecting_sugar",
                .replyKeyboard "Choose your sugar level:" levelButtons]
    threw := false }

/-- The handler `handleIceLevel`. -/
def handleIceLevel (h : Helpers) (s : Session) : Outcome :=
  match s.currentProduct with
  | none => { session := s, effects := [.reply "Please select a product first."], threw := false }
  | some p =>
    if p.category = "iced" ∨ p.category = "frappe" then
      { session := setState s "selecting_ice"
        effects := [.setState "selecting_ice",
                    .replyKeyboard "Choose your ice level:" levelButtons]
        threw := false }
    else
      { session := showCustomizationOptions h s
        effects := [.reply "Ice level is only available for iced drinks and frappes.",
                    .showCustomizationOptions p]
        threw := false }

/-- The handler `handleLevelSelection`. -/
def handleLevelSelection (h : Helpers) (s : Session) (text : String) : Outcome :=
  let level := toLowerCase text
  match s.currentProduct, s.customization with
  | some p, some c =>
    if level ∉ validLevels then
      { session := s, effects := [.reply "Invalid level. Please choose from the options."],
        threw := false }
    else if s.state = "selecting_sugar" then
      let s1 : Session := { s with customization := some { c with sugarLevel := some level } }
      { session := showCustomizationOptions h (setState s1 "customizing")
        effects := [.reply ("Sugar level set to: " ++ level), .setState "customizing",
                    .showCustomizationOptions p]
        threw := false }
    else if s.state = "selecting_ice" then
      let s1 : Session := { s with customization := some { c with iceLevel := some level } }
      { session := showCustomizationOptions h (setState s1 "customizing")
        effects := [.reply ("Ice level set to: " ++ level), .setState "customizing",
                    .showCustomizationOptions p]
        threw := false }
    else
      { session := showCustomizationOptions h (setState s "customizing")
        effects := [.setState "customizing", .showCustomizationOptions p]
        threw := false }
  | _, _ => { session := s, effects := [.reply "Please select a product first."], threw := false }

/-- Whether an add-on of this name is in the selection:
`addOns.some(selected => selected.name === name)`. -/
def isSelected (selection : List AddOn) (name : String) : Bool :=
  selection.any (fun selected => decide (selected.name = name))

/-- The mark `handleAddOns` puts in front of an add-on. -/
def markOf (selection : List AddOn) (a : AddOn) : String :=
  if isSelected selection a.name then "✅" else "➕"

/-- The handler `handleAddOns`.  With add-ons to show and no customization the
read of `session.customization.addOns` throws before anything is changed. -/
def handleAddOns (h : Helpers) (s : Session) : Outcome :=
  match s.currentProduct with
  | none => { session := s, effects := [.reply "Please select a product first."], threw := false }
  | some p =>
    match p.addOns with
    | none | some [] =>
      { session := showCustomizationOptions h s
        effects := [.reply "No add-ons available for this item.", .showCustomizationOptions p]
        threw := false }
    | some (a :: rest) =>
      match s.customization with
      | none => { session := s, effects := [], threw := true }
      | some c =>
        let lines := (a :: rest).map (fun x =>
          markOf c.addOns x ++ " " ++ x.name ++ " - " ++ h.formatPrice x.price ++ "\n")
        let buttons := (a :: rest).map (fun x => [markOf c.addOns x ++ " " ++ x.name])
        { session := setState s "selecting_addons"
          effects := [.setState "selecting_addons",
                      .replyKeyboard ("Available add-ons:\n\n" ++ String.join lines)
                        (buttons ++ [["⬅️ Back to Customization"]])]
          threw := false }

/-- The handler `handleAddOnToggle`. -/
def handleAddOnToggle (h : Helpers) (s : Session) (text : String) : Outcome :=
  let addOnName := stripMark text
  match s.currentProduct.bind (fun p => p.addOns) with
  | none => { session := s, effects := [.reply "Error processing add-on selection."],
              threw := false }
  | some available =>
    match available.find? (fun a => decide (a.name = addOnName)) with
    | none => { session := s, effects := [.reply "Invalid add-on selection."], threw := false }
    | some addOn =>
      match s.customization with
      | none =>
        { session := s
          effects := [.logError "ADDON_TOGGLE", .reply "Error updating add-on. Please try again."]
          threw := false }
      | some c =>
        let toggled : List AddOn × String :=
          if isSelected c.addOns addOn.name then
            (c.addOns.filter (fun selected => decide (selected.name ≠ addOn.name)),
             "Removed: " ++ addOn.name)
          else
            (c.addOns ++ [addOn],
             "Added: " ++ addOn.name ++ " (+" ++ h.formatPrice addOn.price ++ ")")
        let s1 : Session := { s with customization := some { c with addOns := toggled.1 } }
        let shown := handleAddOns h (setState s1 "selecting_addons")
        if shown.threw then
          { session := shown.session
            effects := [.reply toggled.2, .setState "selecting_addons"] ++ shown.effects ++
              [.logError "ADDON_TOGGLE", .reply "Error updating add-on. Please try again."]
            threw := false }
        else
          { session := shown.session
            effects := [.reply toggled.2, .setState "selecting_addons"] ++ shown.effects
            threw := false }

/-- The handler `handleQuantity`. -/
def handleQuantity (s : Session) : Outcome :=
  { session := setState s "selecting_quantity"
    effects := [.setState "selecting_quantity",
                .replyKeyboard "How many would you like?" quantityButtons]
    threw := false }

/-- The handler `handleQuantitySelection`. -/
def handleQuantitySelection (h : Helpers) (s : Session) (text : String) : Outcome :=
  match s.currentProduct, s.customization with
  | some p, some c =>
    match parseInt text with
    | none => { session := s, effects := [.reply "Please select a valid quantity (1-6)."],
                threw := false }
    | some quantity =>
      if quantity < 1 ∨ quantity > 6 then
        { session := s, effects := [.reply "Please select a valid quantity (1-6)."],
          threw := false }
      else
        let s1 : Session := { s with customization := some { c with quantity := quantity } }
        { session := showCustomizationOptions h (setState s1 "customizing")
          effects := [.reply ("Quantity set to: " ++ toString quantity), .setState "customizing",
                      .showCustomizationOptions p]
          threw := false }
  | _, _ => { session := s, effects := [.reply "Please select a product first."], threw := false }

/-- The handler `handleBackToCustomization`. -/
def handleBackToCustomization (h : Helpers) (s : Session) : Outcome :=
  match s.currentProduct with
  | some p =>
    { session := showCustomizationOptions h (setState s "customizing")
      effects := [.setState "customizing", .showCustomizationOptions p]
      threw := false }
  | none => { session := s, effects := [.reply "No product being customized."], threw := false }

/-! ## Derived notions used in the statements -/

/-- The names of the selected add-ons of a session (none without a
customization). -/
def selectedNames (s : Session) : List String :=
  match s.customization with
  | none => []
  | some c => c.addOns.map (fun a => a.name)

/-- The selection after one accepted toggle of the add-on `a`: all add-ons of
that name are removed when one is selected, otherwise `a` is appended. -/
def toggleSelection (selection : List AddOn) (a : AddOn) : List AddOn :=
  if isSelected selection a.name then
    selection.filter (fun selected => decide (selected.name ≠ a.name))
  else selection ++ [a]

/-- The message text resolves to an add-on of the product: after the mark is
stripped it is the name of one of `available`. -/
def resolves (available : List AddOn) (text : String) : Prop :=
  ∃ a ∈ available, a.name = stripMark text

/-- Equality of two texts when the case of the letters `A`..`Z` is ignored. -/
def equalsIgnoreCase (a b : String) : Bool :=
  decide (a.data.map Char.toLower = b.data.map Char.toLower)

/-- The numerals of the integers 1 to 6, which are also the quantity buttons. -/
def quantityNumerals : List String := ["1", "2", "3", "4", "5", "6"]

/-- The product is one for which ice can be chosen. -/
def takesIce (p : Product) : Prop :=
  p.category = "iced" ∨ p.category = "frappe"

instance (p : Product) : Decidable (takesIce p) := by
  unfold takesIce; infer_instance

/-- The handlers exported by the module. -/
inductive Handler where
  | sugarLevel
  | iceLevel
  | levelSelection
  | addOns
  | addOnToggle
  | quantity
  | quantitySelection
  | backToCustomization
  deriving DecidableEq, Repr

/-- One call of a handler on a session with a message text (which the handlers
that do not read `ctx.message.text` ignore). -/
def dispatch (h : Helpers) (k : Handler) (s : Session) (text : String) : Outcome :=
  match k with
  | .sugarLevel => handleSugarLevel s
  | .iceLevel => handleIceLevel h s
  | .levelSelection => handleLevelSelection h s text
  | .addOns => handleAddOns h s
  | .addOnToggle => handleAddOnToggle h s text
  | .quantity => handleQuantity s
  | .quantitySelection => handleQuantitySelection h s text
  | .backToCustomization => handleBackToCustomization h s

/-- A finite sequence of handler calls, each on the session the previous one
left. -/
def runCalls (h : Helpers) (s : Session) (calls : List (Handler × String)) : Session :=
  calls.foldl (fun acc call => (dispatch h call.1 acc call.2).session) s

/-- A leaf input: a text submitted to `handleLevelSelection` or to
`handleQuantitySelection`, with the state the session is in when it arrives. -/
inductive LeafInput where
  | level (state : String) (text : String)
  | quantity (state : String) (text : String)
  deriving DecidableEq, Repr

/-- The leaf inputs the code accepts: a level whose lowercase form is valid,
arriving in `selecting_sugar` or `selecting_ice`, and a quantity that `parseInt`
reads as a number from 1 to 6. -/
def LeafInput.accepted : LeafInput → Bool
  | .level state text =>
    (decide (state = "selecting_sugar") || decide (state = "selecting_ice")) &&
      decide (toLowerCase text ∈ validLevels)
  | .quantity _ text =>
    match parseInt text with
    | some q => decide (1 ≤ q) && decide (q ≤ 6)
    | none => false

/-- Submitting one leaf input to its handler. -/
def submit (h : Helpers) (s : Session) : LeafInput → Session
  | .level state text => (handleLevelSelection h (setState s state) text).session
  | .quantity state text => (handleQuantitySelection h (setState s state) text).session

/-- Submitting a sequence of leaf inputs, one after the other. -/
def submitAll (h : Helpers) (s : Session) (inputs : List LeafInput) : Session :=
  inputs.foldl (submit h) s

/-- The sugar level a leaf input carries, if it is one for the sugar level. -/
def sugarValue : LeafInput → Option (Option String)
  | .level state text => if state = "selecting_sugar" then some (some (toLowerCase text)) else none
  | .quantity _ _ => none

/-- The ice level a leaf input carries, if it is one for the ice level. -/
def iceValue : LeafInput → Option (Option String)
  | .level state text => if state = "selecting_ice" then some (some (toLowerCase text)) else none
  | .quantity _ _ => none

/-- The quantity a leaf input carries, if it is one for the quantity. -/
def quantityValue : LeafInput → Option Int
  | .level _ _ => none
  | .quantity _ text => parseInt text

/-- The last value a sequence of inputs carries for a field, or the initial
value of the field when no input carries one. -/
def lastValue {α : Type} (value : LeafInput → Option α) (inputs : List LeafInput)
    (initial : α) : α :=
  ((inputs.filterMap value).getLast?).getD initial

/-- The ice level of a session, if it has a customization. -/
def iceLevelOf (s : Session) : Option (Option String) :=
  s.customization.map (fun c => c.iceLevel)

/-- The quantity of a session is an integer from 1 to 6. -/
def quantityInRange (s : Session) : Prop :=
  ∃ c, s.customization = some c ∧ 1 ≤ c.quantity ∧ c.quantity ≤ 6

/-- The label `handleAddOns` puts on the button of an add-on: its mark, a
space, its name. -/
def buttonLabel (selection : List AddOn) (a : AddOn) : String :=
  markOf selection a ++ " " ++ a.name

/-- The add-ons of the selected product (none without a product or without an
`addOns` array). -/
def productAddOns (s : Session) : List AddOn :=
  (s.currentProduct.bind (fun p => p.addOns)).getD []

/-- Every selected add-on carries the name of an add-on of the product. -/
def selectionFromProduct (s : Session) : Prop :=
  ∀ n ∈ selectedNames s, ∃ a ∈ productAddOns s, a.name = n

/-! ## The seller scanner (`src/Components/Seller/QRScanner/QRScanner.jsx`) -/

/-- `text.trim()`: white space and line terminators are removed from both
ends. -/
def jsTrim (text : String) : String :=
  String.mk ((text.data.dropWhile isJsWhiteSpace).reverse.dropWhile isJsWhiteSpace).reverse

/-- The body of a successful answer of `POST /orders/verify-qr`, as far as the
scanner looks into it. -/
structure VerifyResponse where
  success : Bool
  orderId : String
  deriving DecidableEq, Repr

/-- How `ordersAPI.verifyQR` ends: with the response body, or by throwing an
error whose `response.data.error` may be absent. -/
inductive VerifyOutcome where
  | resolved (response : VerifyResponse)
  | rejected (serverError : Option String)
  deriving DecidableEq, Repr

/-- The React state of the component, with the two refs it keeps (`stream` and
`scanIntervalRef.current` are recorded as present or absent). -/
structure ScannerState where
  isScanning : Bool
  manualToken : String
  verificationResult : Option VerifyResponse
  error : String
  isLoading : Bool
  scanMode : String
  streamActive : Bool
  intervalSet : Bool
  deriving DecidableEq, Repr

/-- The calls the scanner makes besides setting its own state. -/
inductive ScannerEffect where
  | postVerifyQr (qrToken : String)
  | stopTracks
  | clearInterval
  | clearResultAfter (milliseconds : Nat)
  | preventDefault
  | log (text : String)
  deriving DecidableEq, Repr

/-- The text shown for a failed request:
`error.response?.data?.error || 'Verification failed. Please try again.'`. -/
def rejectionMessage (serverError : Option String) : String :=
  match serverError with
  | some text => if text = "" then "Verification failed. Please try again." else text
  | none => "Verification failed. Please try again."

/-- What the functions of one render close over: `isScanning` and `stream` as
they were when that render ran.  A function created in an earlier render keeps
reading these old values, while the setters it calls act on the live state. -/
structure Render where
  isScanning : Bool
  streamActive : Bool
  deriving DecidableEq, Repr

/-- The render that shows the state `st`. -/
def currentRender (st : ScannerState) : Render :=
  { isScanning := st.isScanning, streamActive := st.streamActive }

/-- The function `stopCamera` of the render `r`, run on the live state `st`:
`stream` is read from the render, `scanIntervalRef.current` is a ref. -/
def stopCamera (r : Render) (st : ScannerState) : ScannerState × List ScannerEffect :=
  let afterStream : ScannerState × List ScannerEffect :=
    if r.streamActive then ({ st with streamActive := false }, [.stopTracks]) else (st, [])
  let afterInterval : List ScannerEffect :=
    if st.intervalSet then afterStream.2 ++ [.clearInterval] else afterStream.2
  ({ afterStream.1 with isScanning := false }, afterInterval)

/-- The function `handleVerifyQR` of the render `r`, run on the live state
`st`, with `verifyQR` standing for `ordersAPI.verifyQR`, which posts its argument
as `qrToken` to `/orders/verify-qr`.  `isScanning` is read from the render. -/
def handleVerifyQR (verifyQR : String → VerifyOutcome) (r : Render) (st : ScannerState)
    (token : String) : ScannerState × List ScannerEffect :=
  if jsTrim token = "" then
    ({ st with error := "Please enter a QR token or scan a QR code" }, [])
  else
    let st1 : ScannerState := { st with isLoading := true, error := "", verificationResult := none }
    match verifyQR (jsTrim token) with
    | .resolved response =>
      let st2 : ScannerState :=
        { st1 with verificationResult := some response, manualToken := "" }
      let stopped : ScannerState × List ScannerEffect :=
        if r.isScanning then stopCamera r st2 else (st2, [])
      ({ stopped.1 with isLoading := false },
       [.postVerifyQr (jsTrim token)] ++ stopped.2 ++ [.clearResultAfter 10000])
    | .rejected serverError =>
      ({ st1 with error := rejectionMessage serverError, isLoading := false },
       [.postVerifyQr (jsTrim token)])

/-- The camera path: the body of the interval callback of `startQRDetection`
once `jsQR` has answered; `decoded` is `code.data`, or `none` when `jsQR` found
no code.  The callback is created when `startCamera` runs, and `startCamera` is
the click handler of a button that is rendered only while `isScanning` is false;
so the `handleVerifyQR` it calls is that of a render with `isScanning` false,
whatever the live state is by now.  `startedStream` is `stream` in that
render. -/
def onFrameDecoded (verifyQR : String → VerifyOutcome) (startedStream : Bool)
    (st : ScannerState) (decoded : Option String) : ScannerState × List ScannerEffect :=
  match decoded with
  | none => (st, [])
  | some data =>
    let verified :=
      handleVerifyQR verifyQR { isScanning := false, streamActive := startedStream } st data
    (verified.1, [.log "QR Code detected:"] ++ verified.2)

/-- The manual path: the function `handleManualSubmit`, the submit handler of
the form in the render that shows `st`. -/
def handleManualSubmit (verifyQR : String → VerifyOutcome) (st : ScannerState) :
    ScannerState × List ScannerEffect :=
  let verified := handleVerifyQR verifyQR (currentRender st) st st.manualToken
  (verified.1, [.preventDefault] ++ verified.2)

/-- What the scanner shows about a verification: the result, the error and the
loading flag. -/
def verificationView (st : ScannerState) : Option VerifyResponse × String × Bool :=
  (st.verificationResult, st.error, st.isLoading)

/-- The verification requests among the calls made: the `qrToken` of each. -/
def verifyRequests (effects : List ScannerEffect) : List String :=
  effects.filterMap (fun e =>
    match e with
    | .postVerifyQr qrToken => some qrToken
    | _ => none)

/-! ## The seller routes (`Backend/routes/admin.js`) -/

/-- A user document as `requireSeller` reads it; `role` is `none` when the
document has no such field. -/
structure User where
  id : String
  role : Option String
  deriving DecidableEq, Repr

/-- How `User.findById(userId)` ends: with a document, with `null`, or by
throwing. -/
inductive Lookup where
  | found (user : User)
  | notFound
  | failed (message : String)
  deriving DecidableEq, Repr

/-- What the middleware does with a request: it calls `next()` after setting
`req.user`, or it answers with a status and an error text. -/
inductive Gate where
  | next (user : User)
  | respond (status : Nat) (error : String)
  deriving DecidableEq, Repr

/-- The parsed body of a request, `req.body`, as the middleware reads it;
`userId` is `none` when the body has no such property. -/
structure RequestBody where
  userId : Option String
  deriving DecidableEq, Repr

/-- The message of the `TypeError` raised by `const { userId } = req.body` when
`req.body` is undefined. -/
def destructureMessage : String :=
  "Cannot destructure property \x27userId\x27 of \x27req.body\x27 as it is undefined."

/-- The middleware `requireSeller`.  `body` is `req.body`, `none` when the
request has no parsed body: the destructuring, which is inside the `try`, then
throws and the `catch` answers 500.  A `userId` that is absent or the empty
string is falsy. -/
def requireSeller (findById : String → Lookup) (body : Option RequestBody) : Gate :=
  match body with
  | none => .respond 500 destructureMessage
  | some b =>
    match b.userId with
    | none => .respond 401 "User ID required"
    | some id =>
      if id = "" then .respond 401 "User ID required"
      else
        match findById id with
        | .failed message => .respond 500 message
        | .notFound => .respond 404 "User not found"
        | .found user =>
          if user.role ≠ some "seller" ∧ user.role ≠ some "admin" then
            .respond 403 "Access denied. Seller privileges required."
          else .next user

/-- The `userId` a request carries: none without a body, without the property,
or with an empty one. -/
def carriedUserId (body : Option RequestBody) : Option String :=
  match body with
  | none => none
  | some b =>
    match b.userId with
    | none => none
    | some id => if id = "" then none else some id

/-- An order document after the `$lookup` stage, as far as the pipeline of
`GET /orders/:sellerId` reads it: `productSellerIds` are the `sellerId`s of its
`productDetails`. -/
structure OrderDoc where
  id : String
  createdAt : Int
  productSellerIds : List String
  deriving DecidableEq, Repr

/-- The answer of the route: the orders, or status 500. -/
inductive OrdersAnswer where
  | orders (list : List OrderDoc)
  | failure (status : Nat)
  deriving DecidableEq, Repr

/-- A query parameter with a default: `parseInt` of the text given, or the
default when the parameter is absent. -/
def queryNumber (given : Option String) (fallback : Int) : Option Int :=
  match given with
  | none => some fallback
  | some text => parseInt text

/-- The stage `$match` with `productDetails.sellerId` equal to the seller. -/
def matchSeller (sellerId : String) (docs : List OrderDoc) : List OrderDoc :=
  docs.filter (fun d => decide (sellerId ∈ d.productSellerIds))

/-- The stage `$sort` by `createdAt`, newest first. -/
def sortNewestFirst (docs : List OrderDoc) : List OrderDoc :=
  docs.insertionSort (fun a b => b.createdAt ≤ a.createdAt)

/-- The last two stages in the order the pipeline lists them: `$limit` first,
then `$skip`. -/
def limitThenSkip (limit skip : Nat) (docs : List OrderDoc) : List OrderDoc :=
  (docs.take limit).drop skip

/-- The route `GET /orders/:sellerId`.  `docs` are the orders after `$lookup`.
The aggregation throws, and the route answers 500, when `$limit` is not a
positive number or `$skip` is negative or either is `NaN`. -/
def getSellerOrders (docs : List OrderDoc) (sellerId : String)
    (limit page : Option String) : OrdersAnswer :=
  match queryNumber limit 20, queryNumber page 1 with
  | some l, some p =>
    if l ≤ 0 ∨ (p - 1) * l < 0 then .failure 500
    else .orders
      (limitThenSkip l.toNat ((p - 1) * l).toNat (sortNewestFirst (matchSeller sellerId docs)))
  | _, _ => .failure 500

/-- The page the claim describes: positions `(p-1)*L+1` to `p*L` of the sorted
list. -/
def pageOf (limit page : Nat) (docs : List OrderDoc) : List OrderDoc :=
  (docs.drop ((page - 1) * limit)).take limit

/-! ## Sample data -/

/-- A sample of the absent helpers: prices are shown with a dollar sign and the
menu leaves the state tag alone. -/
def sampleHelpers : Helpers :=
  { formatPrice := fun price => "$" ++ toString price, menuEntersCustomizing := false }

/-- A hot product with two add-ons. -/
def latte : Product :=
  { name := "Latte", category := "hot",
    addOns := some [{ name := "Extra Shot", price := 75 }, { name := "Whipped Cream", price := 50 }] }

/-- An iced product with the same add-ons. -/
def icedLatte : Product :=
  { name := "Iced Latte", category := "iced",
    addOns := some [{ name := "Extra Shot", price := 75 }, { name := "Whipped Cream", price := 50 }] }

/-- A fresh customization: large, one cup, nothing else chosen. -/
def freshCustomization : Customization :=
  { size := some "large", sugarLevel := none, iceLevel := none, addOns := [], quantity := 1 }

/-- A session customizing a latte. -/
def latteSession : Session :=
  { state := "customizing", currentProduct := some latte, customization := some freshCustomization }

/-- The first add-on of the sample products. -/
def extraShot : AddOn := { name := "Extra Shot", price := 75 }

/-- The second add-on of the sample products. -/
def whippedCream : AddOn := { name := "Whipped Cream", price := 50 }

/-- A scanner that is idle in manual mode. -/
def idleScanner : ScannerState :=
  { isScanning := false, manualToken := "", verificationResult := none, error := "",
    isLoading := false, scanMode := "manual", streamActive := false, intervalSet := false }

/-- A server that accepts every token. -/
def acceptingServer : String → VerifyOutcome :=
  fun qrToken => .resolved { success := true, orderId := qrToken }

/-- A user store with two users, whose documents carry no role, and a lookup
that throws for an id that is not well formed. -/
def sampleUsers : String → Lookup :=
  fun id =>
    if id = "u1" then .found { id := "u1", role := none }
    else if id = "u2" then .found { id := "u2", role := none }
    else if id = "?" then .failed "Cast to ObjectId failed"
    else .notFound

/-- A scanner whose camera is running. -/
def scanningScanner : ScannerState :=
  { isScanning := true, manualToken := "", verificationResult := none, error := "",
    isLoading := false, scanMode := "camera", streamActive := true, intervalSet := true }

/-- A server that knows no token. -/
def refusingServer : String → VerifyOutcome :=
  fun _ => .rejected (some "Invalid QR code")

/-- Four orders of seller `s1`, newest first. -/
def sampleOrders : List OrderDoc :=
  [{ id := "o1", createdAt := 40, productSellerIds := ["s1"] },
   { id := "o2", createdAt := 30, productSellerIds := ["s1"] },
   { id := "o3", createdAt := 20, productSellerIds := ["s1"] },
   { id := "o4", createdAt := 10, productSellerIds := ["s1"] }]

/-- A session in which no product has been selected. -/
def browsingSession : Session :=
  { state := "browsing", currentProduct := none, customization := none }

/-! ## Basic facts -/

@[simp] theorem setState_state (s : Session) (tag : String) : (setState s tag).state = tag := rfl

@[simp] theorem setState_currentProduct (s : Session) (tag : String) :
    (setState s tag).currentProduct = s.currentProduct := rfl

@[simp] theorem setState_customization (s : Session) (tag : String) :
    (setState s tag).customization = s.customization := rfl

@[simp] theorem show_currentProduct (h : Helpers) (s : Session) :
    (showCustomizationOptions h s).currentProduct = s.currentProduct := by
  unfold showCustomizationOptions; split <;> rfl

@[simp] theorem show_customization (h : Helpers) (s : Session) :
    (showCustomizationOptions h s).customization = s.customization := by
  unfold showCustomizationOptions; split <;> rfl

theorem show_state (h : Helpers) (s : Session) :
    (showCustomizationOptions h s).state = "customizing" ∨
      (showCustomizationOptions h s).state = s.state := by
  unfold showCustomizationOptions; split
  · exact Or.inl rfl
  · exact Or.inr rfl

@[simp] theorem show_setState_customizing (h : Helpers) (s : Session) :
    (showCustomizationOptions h (setState s "customizing")).state = "customizing" := by
  unfold showCustomizationOptions; split <;> rfl

theorem isSelected_iff (selection : List AddOn) (name : String) :
    isSelected selection name = true ↔ name ∈ selection.map (fun a => a.name) := by
  simp only [isSelected, List.any_eq_true, decide_eq_true_eq, List.mem_map]

theorem mem_names_toggleSelection (selection : List AddOn) (a : AddOn) (n : String) :
    n ∈ (toggleSelection selection a).map (fun x => x.name) ↔
      if n = a.name then a.name ∉ selection.map (fun x => x.name)
      else n ∈ selection.map (fun x => x.name) := by
  unfold toggleSelection
  by_cases hsel : isSelected selection a.name = true
  · have hmem := (isSelected_iff selection a.name).1 hsel
    by_cases hn : n = a.name
    · subst hn
      simp only [hsel, if_true]
      simp only [hmem, not_true_eq_false, iff_false]
      simp
    · simp only [hsel, if_true, hn, if_false]
      simp only [List.mem_map, List.mem_filter, decide_eq_true_eq]
      constructor
      · rintro ⟨x, ⟨hx, _⟩, rfl⟩; exact ⟨x, hx, rfl⟩
      · rintro ⟨x, hx, rfl⟩; exact ⟨x, ⟨hx, hn⟩, rfl⟩
  · have hmem : a.name ∉ selection.map (fun x => x.name) :=
      fun hm => hsel ((isSelected_iff selection a.name).2 hm)
    by_cases hn : n = a.name
    · subst hn
      simp [hsel, hmem]
    · simp [hsel, hn]

theorem find_of_resolves (available : List AddOn) (text : String)
    (hr : resolves available text) :
    ∃ a, available.find? (fun x => decide (x.name = stripMark text)) = some a ∧
      a ∈ available ∧ a.name = stripMark text := by
  obtain ⟨b, hb, hname⟩ := hr
  cases hfind : available.find? (fun x => decide (x.name = stripMark text)) with
  | none =>
    rw [List.find?_eq_none] at hfind
    exact absurd (by simpa using hname) (hfind b hb)
  | some a =>
    refine ⟨a, rfl, List.mem_of_find?_eq_some hfind, ?_⟩
    simpa using List.find?_some hfind

theorem handleAddOns_currentProduct (h : Helpers) (s : Session) :
    (handleAddOns h s).session.currentProduct = s.currentProduct := by
  unfold handleAddOns
  repeat' split
  all_goals simp

theorem handleAddOns_customization (h : Helpers) (s : Session) :
    (handleAddOns h s).session.customization = s.customization := by
  unfold handleAddOns
  repeat' split
  all_goals simp

/-- With add-ons to show and a customization, `handleAddOns` enters
`selecting_addons` and does not throw. -/
theorem handleAddOns_shown (h : Helpers) (s : Session) (p : Product) (x : AddOn)
    (rest : List AddOn) (c : Customization) (hp : s.currentProduct = some p)
    (ha : p.addOns = some (x :: rest)) (hc : s.customization = some c) :
    (handleAddOns h s).session = setState s "selecting_addons" ∧
      (handleAddOns h s).threw = false := by
  unfold handleAddOns
  simp only [hp, ha, hc, and_self]

/-- What an accepted toggle does to a session that has a customization. -/
theorem toggle_accepted (h : Helpers) (s : Session) (text : String) (p : Product)
    (available : List AddOn) (a : AddOn) (c : Customization)
    (hp : s.currentProduct = some p) (ha : p.addOns = some available)
    (hf : available.find? (fun x => decide (x.name = stripMark text)) = some a)
    (hc : s.customization = some c) :
    (handleAddOnToggle h s text).session =
      { state := "selecting_addons", currentProduct := some p,
        customization := some { c with addOns := toggleSelection c.addOns a } } := by
  cases available with
  | nil => simp at hf
  | cons x rest =>
    unfold handleAddOnToggle
    simp only [hp, Option.some_bind, ha, hf, hc]
    have key := fun (c1 : Customization) =>
      handleAddOns_shown h
        (setState { state := s.state, currentProduct := some p, customization := some c1 }
          "selecting_addons") p x rest c1 rfl ha rfl
    unfold toggleSelection
    by_cases hsel : isSelected c.addOns a.name = true
    · simp only [hsel, if_true, (key _).2, (key _).1, Bool.false_eq_true, if_false]
      rfl
    · simp only [hsel, if_false, (key _).2, (key _).1, Bool.false_eq_true]
      rfl

/-- A toggle on a session without a customization changes nothing. -/
theorem toggle_noCustomization (h : Helpers) (s : Session) (text : String)
    (hc : s.customization = none) : (handleAddOnToggle h s text).session = s := by
  unfold handleAddOnToggle
  simp only [hc]
  split
  · rfl
  · split <;> rfl

/-- Every run of `handleAddOnToggle` either leaves the session as it was or is
an accepted toggle on a session with a customization. -/
theorem toggle_cases (h : Helpers) (s : Session) (text : String) :
    (handleAddOnToggle h s text).session = s ∨
      ∃ p available a c, s.currentProduct = some p ∧ p.addOns = some available ∧
        available.find? (fun x => decide (x.name = stripMark text)) = some a ∧
        s.customization = some c := by
  cases hp : s.currentProduct with
  | none => left; unfold handleAddOnToggle; simp only [hp, Option.none_bind]
  | some p =>
    cases ha : p.addOns with
    | none => left; unfold handleAddOnToggle; simp only [hp, Option.some_bind, ha]
    | some available =>
      cases hf : available.find? (fun x => decide (x.name = stripMark text)) with
      | none => left; unfold handleAddOnToggle; simp only [hp, Option.some_bind, ha, hf]
      | some a =>
        cases hc : s.customization with
        | none => left; exact toggle_noCustomization h s text hc
        | some c => right; exact ⟨p, available, a, c, rfl, ha, hf, rfl⟩

theorem nodup_names_toggleSelection (selection : List AddOn) (a : AddOn)
    (hu : (selection.map (fun x => x.name)).Nodup) :
    ((toggleSelection selection a).map (fun x => x.name)).Nodup := by
  unfold toggleSelection
  by_cases hsel : isSelected selection a.name = true
  · simp only [hsel, if_true]
    exact hu.sublist ((List.filter_sublist selection).map _)
  · have hmem : a.name ∉ selection.map (fun x => x.name) :=
      fun hm => hsel ((isSelected_iff selection a.name).2 hm)
    simp only [hsel, Bool.false_eq_true, if_false, List.map_append, List.map_cons, List.map_nil]
    rw [List.nodup_append]
    refine ⟨hu, List.nodup_singleton _, ?_⟩
    intro n hn hn1
    rw [List.mem_singleton] at hn1
    exact hmem (hn1 ▸ hn)

/-! ## Add-on toggles -/

/-- C1: for a session with a selected product and a message text that, once
its mark is stripped, names one of the product's add-ons, two runs of
`handleAddOnToggle` with that text leave the selection with the same set of
add-on names as before the first run. -/
theorem handleAddOnToggle_twice_same_names (h : Helpers) (s : Session) (text : String)
    (p : Product) (available : List AddOn)
    (hp : s.currentProduct = some p) (ha : p.addOns = some available)
    (hr : resolves available text) :
    (selectedNames
        (handleAddOnToggle h (handleAddOnToggle h s text).session text).session).toFinset =
      (selectedNames s).toFinset := by
  obtain ⟨a, hf, -, -⟩ := find_of_resolves available text hr
  cases hc : s.customization with
  | none =>
    rw [toggle_noCustomization h s text hc, toggle_noCustomization h s text hc]
  | some c =>
    rw [toggle_accepted h s text p available a c hp ha hf hc]
    rw [toggle_accepted h _ text p available a _ rfl ha hf rfl]
    ext n
    simp only [selectedNames, hc, List.mem_toFinset, mem_names_toggleSelection]
    by_cases hn : n = a.name
    · subst hn; simp
    · simp [hn]

/-- C1 at a concrete input: a latte session, the button text of the add-on
"Extra Shot". -/
theorem handleAddOnToggle_twice_same_names_witness :
    resolves [{ name := "Extra Shot", price := 75 }, { name := "Whipped Cream", price := 50 }]
        "➕ Extra Shot" ∧
      (selectedNames
          (handleAddOnToggle sampleHelpers
            (handleAddOnToggle sampleHelpers latteSession "➕ Extra Shot").session
            "➕ Extra Shot").session).toFinset =
        (selectedNames latteSession).toFinset :=
  ⟨⟨{ name := "Extra Shot", price := 75 }, by decide, by decide⟩,
   handleAddOnToggle_twice_same_names sampleHelpers latteSession "➕ Extra Shot" latte _ rfl rfl
     ⟨{ name := "Extra Shot", price := 75 }, by decide, by decide⟩⟩

/-- C7: if no two selected add-ons share a name before `handleAddOnToggle`,
then for every message text no two selected add-ons share a name after it. -/
theorem handleAddOnToggle_preserves_unique_names (h : Helpers) (s : Session) (text : String)
    (hu : (selectedNames s).Nodup) :
    (selectedNames (handleAddOnToggle h s text).session).Nodup := by
  rcases toggle_cases h s text with hsame | ⟨p, available, a, c, hp, ha, hf, hc⟩
  · rw [hsame]; exact hu
  · rw [toggle_accepted h s text p available a c hp ha hf hc]
    simp only [selectedNames, hc] at hu ⊢
    exact nodup_names_toggleSelection c.addOns a hu

/-- C7 at a concrete input: the latte session with "Extra Shot" selected,
toggling "Whipped Cream". -/
theorem handleAddOnToggle_preserves_unique_names_witness :
    (selectedNames (handleAddOnToggle sampleHelpers latteSession "➕ Extra Shot").session).Nodup ∧
      (selectedNames (handleAddOnToggle sampleHelpers
        (handleAddOnToggle sampleHelpers latteSession "➕ Extra Shot").session
        "➕ Whipped Cream").session).Nodup :=
  ⟨by decide,
   handleAddOnToggle_preserves_unique_names sampleHelpers
     (handleAddOnToggle sampleHelpers latteSession "➕ Extra Shot").session "➕ Whipped Cream"
     (by decide)⟩

/-- C8: an accepted toggle (the text names one of the product's add-ons, and
the session has a customization to toggle in) flips the membership of that
add-on name in the selection, keeps the membership of every other name, and
ends in state `selecting_addons`, which is not `customizing`; it never calls
`setState` with `customizing`. -/
theorem handleAddOnToggle_accepted_toggles_one (h : Helpers) (s : Session) (text : String)
    (p : Product) (available : List AddOn) (c : Customization)
    (hp : s.currentProduct = some p) (ha : p.addOns = some available)
    (hc : s.customization = some c) (hr : resolves available text) :
    (handleAddOnToggle h s text).session.state = "selecting_addons" ∧
      (handleAddOnToggle h s text).session.state ≠ "customizing" ∧
      (stripMark text ∈ selectedNames (handleAddOnToggle h s text).session ↔
        stripMark text ∉ selectedNames s) ∧
      (∀ n, n ≠ stripMark text →
        (n ∈ selectedNames (handleAddOnToggle h s text).session ↔ n ∈ selectedNames s)) ∧
      Effect.setState "customizing" ∉ (handleAddOnToggle h s text).effects := by
  obtain ⟨a, hf, -, hname⟩ := find_of_resolves available text hr
  rw [toggle_accepted h s text p available a c hp ha hf hc]
  refine ⟨rfl, ?_, ?_, ?_, ?_⟩
  · show "selecting_addons" ≠ "customizing"
    decide
  · simp only [selectedNames, hc, mem_names_toggleSelection, ← hname, if_true]
  · intro n hn
    rw [← hname] at hn
    simp only [selectedNames, hc, mem_names_toggleSelection, hn, if_false]
  · cases available with
    | nil => simp at hf
    | cons x rest =>
      unfold handleAddOnToggle
      simp only [hp, Option.some_bind, ha, hf, hc]
      unfold handleAddOns
      simp only [setState, ha]
      split <;> simp

/-- C8 at a concrete input: adding "Extra Shot" to the latte session. -/
theorem handleAddOnToggle_accepted_toggles_one_witness :
    (handleAddOnToggle sampleHelpers latteSession "➕ Extra Shot").session.state =
        "selecting_addons" ∧
      "Extra Shot" ∈ selectedNames
        (handleAddOnToggle sampleHelpers latteSession "➕ Extra Shot").session :=
  have key := handleAddOnToggle_accepted_toggles_one sampleHelpers latteSession "➕ Extra Shot"
    latte _ freshCustomization rfl rfl rfl
    ⟨{ name := "Extra Shot", price := 75 }, by decide, by decide⟩
  ⟨key.1, key.2.2.1.2 (by decide)⟩

/-! ## Ice level, back, and rejected input -/

/-- C5: `handleIceLevel` calls `setState` with `selecting_ice` exactly when a
product is selected and its category is `iced` or `frappe`, and then the session
is in that state; for a product of any other category it leaves the
customization as it was and the session is in `selecting_ice` afterwards only if
it already was before, the handler not having put it there. -/
theorem handleIceLevel_enters_iff (h : Helpers) (s : Session) :
    (Effect.setState "selecting_ice" ∈ (handleIceLevel h s).effects ↔
        ∃ p, s.currentProduct = some p ∧ takesIce p) ∧
      ((∃ p, s.currentProduct = some p ∧ takesIce p) →
        (handleIceLevel h s).session.state = "selecting_ice") ∧
      (∀ p, s.currentProduct = some p → ¬ takesIce p →
        (handleIceLevel h s).session.customization = s.customization ∧
        (handleIceLevel h s).session.currentProduct = s.currentProduct ∧
        ((handleIceLevel h s).session.state = "selecting_ice" → s.state = "selecting_ice")) := by
  cases hp : s.currentProduct with
  | none => simp [handleIceLevel, hp]
  | some p =>
    by_cases hice : takesIce p
    · have hice2 := hice
      unfold takesIce at hice2
      simp [handleIceLevel, hp, hice, hice2]
    · have hice2 := hice
      unfold takesIce at hice2
      simp only [handleIceLevel, hp, hice2, if_false]
      refine ⟨by simp [hice], by simp [hice], ?_⟩
      intro q hq _
      refine ⟨by simp, by simp [hp], ?_⟩
      intro hst
      rcases show_state h s with h1 | h1
      · rw [h1] at hst; exact absurd hst (by decide)
      · rw [← h1]; exact hst

/-- C5 at concrete inputs: an iced product enters `selecting_ice`, a hot one
does not. -/
theorem handleIceLevel_enters_iff_witness :
    (handleIceLevel sampleHelpers { latteSession with currentProduct := some icedLatte }).session.state
        = "selecting_ice" ∧
      (handleIceLevel sampleHelpers latteSession).session.customization
        = latteSession.customization :=
  ⟨(handleIceLevel_enters_iff sampleHelpers
      { latteSession with currentProduct := some icedLatte }).2.1
      ⟨icedLatte, rfl, Or.inl rfl⟩,
   ((handleIceLevel_enters_iff sampleHelpers latteSession).2.2 latte rfl (by decide)).1⟩

/-- C9: for a session with a selected product, in any state and so in each of
the leaf states, `handleBackToCustomization` ends in state `customizing` and
leaves the customization (sugar level, ice level, add-ons, quantity, size) and
the product as they were. -/
theorem handleBackToCustomization_returns (h : Helpers) (s : Session) (p : Product)
    (hp : s.currentProduct = some p) :
    (handleBackToCustomization h s).session.state = "customizing" ∧
      (handleBackToCustomization h s).session.customization = s.customization ∧
      (handleBackToCustomization h s).session.currentProduct = s.currentProduct := by
  simp [handleBackToCustomization, hp]

/-- C9 at a concrete input: back from `selecting_quantity`. -/
theorem handleBackToCustomization_returns_witness :
    (handleBackToCustomization sampleHelpers (setState latteSession "selecting_quantity")).session.state
        = "customizing" ∧
      (handleBackToCustomization sampleHelpers
        (setState latteSession "selecting_quantity")).session.customization
        = some freshCustomization :=
  have key := handleBackToCustomization_returns sampleHelpers
    (setState latteSession "selecting_quantity") latte rfl
  ⟨key.1, key.2.1⟩

/-- If the lowercase form of a text has neither `k` nor U+0307 in it, it is the
text with `A`..`Z` replaced by `a`..`z`. -/
theorem flatMap_lowerChar_eq_map (cs out : List Char)
    (hout : cs.flatMap lowerChar = out) (hk : 'k' ∉ out) (hdot : Char.ofNat 0x0307 ∉ out) :
    cs.map Char.toLower = out := by
  induction cs generalizing out with
  | nil => simpa using hout
  | cons c cs ih =>
    rw [List.flatMap_cons] at hout
    by_cases h1 : c.toNat = 0x0130
    · have hc : lowerChar c = ['i', Char.ofNat 0x0307] := by simp [lowerChar, h1]
      rw [hc] at hout
      exact absurd (hout ▸ by simp) hdot
    · by_cases h2 : c.toNat = 0x212A
      · have hc : lowerChar c = ['k'] := by simp [lowerChar, h2]
        rw [hc] at hout
        exact absurd (hout ▸ by simp) hk
      · have hc : lowerChar c = [c.toLower] := by simp [lowerChar, h1, h2]
        rw [hc] at hout
        subst hout
        simp only [List.singleton_append, List.mem_cons, not_or] at hk hdot
        simp only [List.map_cons, List.singleton_append]
        rw [ih _ rfl hk.2 hdot.2]

/-- A text whose lowercase form is a valid level is that level up to the case
of its letters. -/
theorem equalsIgnoreCase_of_valid (text : String) (hv : toLowerCase text ∈ validLevels) :
    ∃ l ∈ validLevels, equalsIgnoreCase text l = true := by
  refine ⟨toLowerCase text, hv, ?_⟩
  have hfacts : ∀ l ∈ validLevels,
      'k' ∉ l.data ∧ Char.ofNat 0x0307 ∉ l.data ∧ l.data.map Char.toLower = l.data := by
    decide
  obtain ⟨hk, hdot, hlow⟩ := hfacts _ hv
  have hmap := flatMap_lowerChar_eq_map text.data (toLowerCase text).data rfl hk hdot
  simp only [equalsIgnoreCase, decide_eq_true_eq]
  rw [hlow, hmap]

/-- C4: a message text that is not, ignoring letter case, one of `none`, `low`,
`medium`, `high` is rejected by `handleLevelSelection` whatever the current
state: the session (state tag, sugar level, ice level, add-ons, quantity, size)
is the same after the call as before, and `setState` is not called. -/
theorem handleLevelSelection_rejects_invalid (h : Helpers) (s : Session) (text : String)
    (hbad : ∀ l ∈ validLevels, equalsIgnoreCase text l = false) :
    (handleLevelSelection h s text).session = s ∧
      ∀ tag, Effect.setState tag ∉ (handleLevelSelection h s text).effects := by
  have hnot : toLowerCase text ∉ validLevels := by
    intro hv
    obtain ⟨l, hl, heq⟩ := equalsIgnoreCase_of_valid text hv
    rw [hbad l hl] at heq
    exact absurd heq (by decide)
  unfold handleLevelSelection
  split
  · simp [hnot]
  · simp

/-- C4 at a concrete input: the text "extra" while selecting sugar. -/
theorem handleLevelSelection_rejects_invalid_witness :
    (∀ l ∈ validLevels, equalsIgnoreCase "extra" l = false) ∧
      (handleLevelSelection sampleHelpers (setState latteSession "selecting_sugar") "extra").session
        = setState latteSession "selecting_sugar" :=
  ⟨by decide,
   (handleLevelSelection_rejects_invalid sampleHelpers (setState latteSession "selecting_sugar")
      "extra" (by decide)).1⟩

/-- C3 as stated fails: "3abc" is not the numeral of an integer from 1 to 6,
yet `handleQuantitySelection` accepts it, sets the quantity to 3 and sets the
state to `customizing`. -/
theorem handleQuantitySelection_accepts_leading_numeral :
    "3abc" ∉ quantityNumerals ∧
      (setState latteSession "selecting_quantity").customization.map (fun c => c.quantity)
        = some 1 ∧
      (handleQuantitySelection sampleHelpers (setState latteSession "selecting_quantity")
        "3abc").session.customization.map (fun c => c.quantity) = some 3 ∧
      (handleQuantitySelection sampleHelpers (setState latteSession "selecting_quantity")
        "3abc").session.state = "customizing" := by
  decide

/-- C3, amended: a message text for which `parseInt` gives `NaN` or a number
outside 1..6 is rejected by `handleQuantitySelection`: the session (quantity,
every other customization field, state tag) is the same after the call as
before, and `setState` is not called. -/
theorem handleQuantitySelection_rejects_unparsed (h : Helpers) (s : Session) (text : String)
    (hrej : ∀ q, parseInt text = some q → q < 1 ∨ 6 < q) :
    (handleQuantitySelection h s text).session = s ∧
      ∀ tag, Effect.setState tag ∉ (handleQuantitySelection h s text).effects := by
  unfold handleQuantitySelection
  split
  · cases hparse : parseInt text with
    | none => simp
    | some q =>
      have hq := hrej q hparse
      have hq2 : q < 1 ∨ q > 6 := hq
      simp [hq2]
  · simp

/-- C3, amended, at concrete inputs: "7" and "many" are rejected. -/
theorem handleQuantitySelection_rejects_unparsed_witness :
    (∀ q, parseInt "7" = some q → q < 1 ∨ 6 < q) ∧
      (handleQuantitySelection sampleHelpers latteSession "7").session = latteSession ∧
      (handleQuantitySelection sampleHelpers latteSession "many").session = latteSession :=
  ⟨by intro q hq; have h7 : parseInt "7" = some 7 := by decide
      rw [h7] at hq; cases hq; decide,
   (handleQuantitySelection_rejects_unparsed sampleHelpers latteSession "7"
      (by intro q hq; have h7 : parseInt "7" = some 7 := by decide
          rw [h7] at hq; cases hq; decide)).1,
   (handleQuantitySelection_rejects_unparsed sampleHelpers latteSession "many"
      (by intro q hq; have hn : parseInt "many" = none := by decide
          rw [hn] at hq; cases hq)).1⟩

/-! ## Sequences of leaf inputs -/

theorem lastValue_concat {α : Type} (value : LeafInput → Option α) (inputs : List LeafInput)
    (x : LeafInput) (initial : α) :
    lastValue value (inputs ++ [x]) initial =
      (value x).getD (lastValue value inputs initial) := by
  unfold lastValue
  rw [List.filterMap_append]
  cases hx : value x with
  | none => simp [List.filterMap_cons, hx]
  | some v => simp [List.filterMap_cons, hx, List.getLast?_concat]

/-- An accepted level in `selecting_sugar` overwrites the sugar level. -/
theorem submit_sugar (h : Helpers) (s : Session) (p : Product) (c : Customization)
    (text : String) (hp : s.currentProduct = some p) (hc : s.customization = some c)
    (hv : toLowerCase text ∈ validLevels) :
    submit h s (.level "selecting_sugar" text) =
      { state := "customizing", currentProduct := some p,
        customization := some { c with sugarLevel := some (toLowerCase text) } } := by
  simp only [submit, handleLevelSelection, setState, hp, hc, hv, not_true_eq_false, if_false,
    if_true, showCustomizationOptions]
  split <;> rfl

/-- An accepted level in `selecting_ice` overwrites the ice level. -/
theorem submit_ice (h : Helpers) (s : Session) (p : Product) (c : Customization)
    (text : String) (hp : s.currentProduct = some p) (hc : s.customization = some c)
    (hv : toLowerCase text ∈ validLevels) :
    submit h s (.level "selecting_ice" text) =
      { state := "customizing", currentProduct := some p,
        customization := some { c with iceLevel := some (toLowerCase text) } } := by
  have hne : ¬ ("selecting_ice" = "selecting_sugar") := by decide
  simp only [submit, handleLevelSelection, setState, hp, hc, hv, not_true_eq_false, if_false,
    if_true, showCustomizationOptions, hne]
  split <;> rfl

/-- An accepted quantity overwrites the quantity. -/
theorem submit_quantity (h : Helpers) (s : Session) (p : Product) (c : Customization)
    (state text : String) (q : Int) (hp : s.currentProduct = some p)
    (hc : s.customization = some c) (hparse : parseInt text = some q)
    (h1 : 1 ≤ q) (h6 : q ≤ 6) :
    submit h s (.quantity state text) =
      { state := "customizing", currentProduct := some p,
        customization := some { c with quantity := q } } := by
  have hin : ¬ (q < 1 ∨ q > 6) := by omega
  simp only [submit, handleQuantitySelection, setState, hp, hc, hparse, hin, if_false,
    showCustomizationOptions]
  split <;> rfl

/-- One accepted leaf input: the field it is for takes its value, the other
fields stay, and the state is `customizing`. -/
theorem submit_accepted (h : Helpers) (s : Session) (p : Product) (c : Customization)
    (x : LeafInput) (hp : s.currentProduct = some p) (hc : s.customization = some c)
    (hacc : x.accepted = true) :
    ∃ c1, submit h s x =
        { state := "customizing", currentProduct := some p, customization := some c1 } ∧
      c1.sugarLevel = (sugarValue x).getD c.sugarLevel ∧
      c1.iceLevel = (iceValue x).getD c.iceLevel ∧
      c1.quantity = (quantityValue x).getD c.quantity ∧
      c1.addOns = c.addOns ∧ c1.size = c.size := by
  cases x with
  | level state text =>
    simp only [LeafInput.accepted, Bool.and_eq_true, Bool.or_eq_true, decide_eq_true_eq] at hacc
    obtain ⟨hstate, hv⟩ := hacc
    rcases hstate with rfl | rfl
    · exact ⟨_, submit_sugar h s p c text hp hc hv, by simp [sugarValue], by simp [iceValue],
        by simp [quantityValue], rfl, rfl⟩
    · exact ⟨_, submit_ice h s p c text hp hc hv, by simp [sugarValue], by simp [iceValue],
        by simp [quantityValue], rfl, rfl⟩
  | quantity state text =>
    simp only [LeafInput.accepted] at hacc
    cases hparse : parseInt text with
    | none => simp [hparse] at hacc
    | some q =>
      simp only [hparse, Bool.and_eq_true, decide_eq_true_eq] at hacc
      exact ⟨_, submit_quantity h s p c state text q hp hc hparse hacc.1 hacc.2,
        by simp [sugarValue], by simp [iceValue], by simp [quantityValue, hparse], rfl, rfl⟩

/-- C6: for a session with a product and a customization and every sequence of
accepted leaf inputs, the resulting sugar level, ice level and quantity are each
the last value accepted for that field, or the initial value when the field
received no input; add-ons and size stay as they were; and after every non-empty
such sequence, so after each accepted input, the state is `customizing`. -/
theorem accepted_inputs_last_value_wins (h : Helpers) (s : Session) (p : Product)
    (c : Customization) (inputs : List LeafInput)
    (hp : s.currentProduct = some p) (hc : s.customization = some c)
    (hacc : ∀ x ∈ inputs, x.accepted = true) :
    ∃ c1, (submitAll h s inputs).customization = some c1 ∧
      c1.sugarLevel = lastValue sugarValue inputs c.sugarLevel ∧
      c1.iceLevel = lastValue iceValue inputs c.iceLevel ∧
      c1.quantity = lastValue quantityValue inputs c.quantity ∧
      c1.addOns = c.addOns ∧ c1.size = c.size ∧
      (submitAll h s inputs).currentProduct = some p ∧
      (inputs ≠ [] → (submitAll h s inputs).state = "customizing") := by
  induction inputs using List.reverseRecOn with
  | nil => exact ⟨c, hc, rfl, rfl, rfl, rfl, rfl, hp, fun hne => absurd rfl hne⟩
  | append_singleton l x ih =>
    obtain ⟨c0, hc0, hs0, hi0, hq0, ha0, hz0, hp0, -⟩ :=
      ih (fun y hy => hacc y (List.mem_append_left _ hy))
    obtain ⟨c1, hsub, hs1, hi1, hq1, ha1, hz1⟩ :=
      submit_accepted h (submitAll h s l) p c0 x hp0 hc0
        (hacc x (List.mem_append_right _ (List.mem_singleton_self x)))
    have hrun : submitAll h s (l ++ [x]) = submit h (submitAll h s l) x := by
      simp [submitAll, List.foldl_append]
    rw [hrun, hsub]
    refine ⟨c1, rfl, ?_, ?_, ?_, ha1.trans ha0, hz1.trans hz0, rfl, fun _ => rfl⟩
    · rw [lastValue_concat, hs1, hs0]
    · rw [lastValue_concat, hi1, hi0]
    · rw [lastValue_concat, hq1, hq0]

/-- C6 at a concrete input: sugar "High", quantity "2", sugar "low", ice
"Medium", quantity "5" leave sugar `low`, ice `medium` and quantity 5. -/
theorem accepted_inputs_last_value_wins_witness :
    (∀ x ∈ [LeafInput.level "selecting_sugar" "High", .quantity "selecting_quantity" "2",
              .level "selecting_sugar" "low", .level "selecting_ice" "Medium",
              .quantity "selecting_quantity" "5"], x.accepted = true) ∧
      ∃ c1, (submitAll sampleHelpers latteSession
          [.level "selecting_sugar" "High", .quantity "selecting_quantity" "2",
            .level "selecting_sugar" "low", .level "selecting_ice" "Medium",
            .quantity "selecting_quantity" "5"]).customization = some c1 ∧
        c1.sugarLevel = some "low" ∧ c1.iceLevel = some "medium" ∧ c1.quantity = 5 :=
  ⟨by decide,
   by
    obtain ⟨c1, hc1, hs, hi, hq, -⟩ :=
      accepted_inputs_last_value_wins sampleHelpers latteSession latte freshCustomization
        [.level "selecting_sugar" "High", .quantity "selecting_quantity" "2",
          .level "selecting_sugar" "low", .level "selecting_ice" "Medium",
          .quantity "selecting_quantity" "5"] rfl rfl (by decide)
    refine ⟨c1, hc1, ?_, ?_, ?_⟩
    · rw [hs]; decide
    · rw [hi]; decide
    · rw [hq]; decide⟩

/-! ## Invariants of the handlers -/

theorem show_state_ne_ice (h : Helpers) (s : Session) (hst : s.state ≠ "selecting_ice") :
    (showCustomizationOptions h s).state ≠ "selecting_ice" := by
  rcases show_state h s with h1 | h1
  · rw [h1]; decide
  · rw [h1]; exact hst

/-- What `handleLevelSelection` can do: nothing, or overwrite one level (none
outside the two level states) and go back to the menu. -/
theorem levelSelection_cases (h : Helpers) (s : Session) (text : String) :
    (handleLevelSelection h s text).session = s ∨
      ∃ p c c1, s.currentProduct = some p ∧ s.customization = some c ∧
        (handleLevelSelection h s text).session =
          showCustomizationOptions h
            { state := "customizing", currentProduct := some p, customization := some c1 } ∧
        c1.quantity = c.quantity ∧ c1.addOns = c.addOns ∧ c1.size = c.size ∧
        (s.state ≠ "selecting_ice" → c1.iceLevel = c.iceLevel) := by
  cases hp : s.currentProduct with
  | none => left; simp only [handleLevelSelection, hp]
  | some p =>
    cases hc : s.customization with
    | none => left; simp only [handleLevelSelection, hp, hc]
    | some c =>
      by_cases hv : toLowerCase text ∈ validLevels
      · right
        by_cases hs : s.state = "selecting_sugar"
        · refine ⟨p, c, { c with sugarLevel := some (toLowerCase text) }, rfl, rfl, ?_,
            rfl, rfl, rfl, fun _ => rfl⟩
          simp only [handleLevelSelection, hp, hc, hv, hs, not_true_eq_false, if_false, if_true,
            setState]
        · by_cases hi : s.state = "selecting_ice"
          · refine ⟨p, c, { c with iceLevel := some (toLowerCase text) }, rfl, rfl, ?_,
              rfl, rfl, rfl, fun hne => absurd hi hne⟩
            have hne : ¬ ("selecting_ice" = "selecting_sugar") := by decide
            simp only [handleLevelSelection, hp, hc, hv, hi, hne, not_true_eq_false, if_false,
              if_true, setState]
          · refine ⟨p, c, c, rfl, rfl, ?_, rfl, rfl, rfl, fun _ => rfl⟩
            simp only [handleLevelSelection, hp, hc, hv, hs, hi, not_true_eq_false, if_false,
              setState]
      · left
        simp only [handleLevelSelection, hp, hc, hv, not_false_eq_true, if_true]

/-- What `handleQuantitySelection` can do: nothing, or overwrite the quantity
with a number from 1 to 6 and go back to the menu. -/
theorem quantitySelection_cases (h : Helpers) (s : Session) (text : String) :
    (handleQuantitySelection h s text).session = s ∨
      ∃ p c q, s.currentProduct = some p ∧ s.customization = some c ∧
        1 ≤ q ∧ q ≤ 6 ∧
        (handleQuantitySelection h s text).session =
          showCustomizationOptions h
            { state := "customizing", currentProduct := some p,
              customization := some { c with quantity := q } } := by
  cases hp : s.currentProduct with
  | none => left; simp only [handleQuantitySelection, hp]
  | some p =>
    cases hc : s.customization with
    | none => left; simp only [handleQuantitySelection, hp, hc]
    | some c =>
      cases hparse : parseInt text with
      | none => left; simp only [handleQuantitySelection, hp, hc, hparse]
      | some q =>
        by_cases hout : q < 1 ∨ q > 6
        · left; simp only [handleQuantitySelection, hp, hc, hparse, hout, if_true]
        · right
          refine ⟨p, c, q, rfl, rfl, by omega, by omega, ?_⟩
          simp only [handleQuantitySelection, hp, hc, hparse, hout, if_false, setState]

theorem show_customizing_state (h : Helpers) (p : Option Product) (c : Option Customization) :
    (showCustomizationOptions h
      { state := "customizing", currentProduct := p, customization := c }).state
      = "customizing" := by
  unfold showCustomizationOptions; split <;> rfl

/-- No handler changes the selected product. -/
theorem dispatch_currentProduct (h : Helpers) (k : Handler) (s : Session) (text : String) :
    (dispatch h k s text).session.currentProduct = s.currentProduct := by
  cases k <;> simp only [dispatch]
  · rfl
  · unfold handleIceLevel; repeat' split
    all_goals simp
  · rcases levelSelection_cases h s text with hsame | ⟨p, c, c1, hp, hc, hres, -⟩
    · rw [hsame]
    · rw [hres, show_currentProduct, hp]
  · exact handleAddOns_currentProduct h s
  · rcases toggle_cases h s text with hsame | ⟨p, available, a, c, hp, ha, hf, hc⟩
    · rw [hsame]
    · rw [toggle_accepted h s text p available a c hp ha hf hc, hp]
  · rfl
  · rcases quantitySelection_cases h s text with hsame | ⟨p, c, q, hp, hc, -, -, hres⟩
    · rw [hsame]
    · rw [hres, show_currentProduct, hp]
  · unfold handleBackToCustomization; repeat' split
    all_goals simp

/-- With a product that does not take ice, no handler brings a session that is
outside `selecting_ice` into it. -/
theorem dispatch_state_ice (h : Helpers) (k : Handler) (s : Session) (text : String)
    (hst : s.state ≠ "selecting_ice")
    (hhot : ∀ p, s.currentProduct = some p → ¬ takesIce p) :
    (dispatch h k s text).session.state ≠ "selecting_ice" := by
  have hcust : (showCustomizationOptions h (setState s "customizing")).state
      ≠ "selecting_ice" := by
    rw [show_setState_customizing]; decide
  cases k <;> simp only [dispatch]
  · show "selecting_sugar" ≠ "selecting_ice"; decide
  · unfold handleIceLevel
    split
    · exact hst
    · rename_i p hp
      have hno := hhot p hp
      unfold takesIce at hno
      simp only [hno, if_false]
      exact show_state_ne_ice h s hst
  · rcases levelSelection_cases h s text with hsame | ⟨p, c, c1, hp, hc, hres, -⟩
    · rw [hsame]; exact hst
    · rw [hres, show_customizing_state]; decide
  · unfold handleAddOns
    repeat' split
    all_goals first | exact hst | exact show_state_ne_ice h s hst |
      (show "selecting_addons" ≠ "selecting_ice"; decide)
  · rcases toggle_cases h s text with hsame | ⟨p, available, a, c, hp, ha, hf, hc⟩
    · rw [hsame]; exact hst
    · rw [toggle_accepted h s text p available a c hp ha hf hc]
      show "selecting_addons" ≠ "selecting_ice"; decide
  · show "selecting_quantity" ≠ "selecting_ice"; decide
  · rcases quantitySelection_cases h s text with hsame | ⟨p, c, q, hp, hc, -, -, hres⟩
    · rw [hsame]; exact hst
    · rw [hres, show_customizing_state]; decide
  · unfold handleBackToCustomization
    split
    · exact hcust
    · exact hst

/-- Outside `selecting_ice` no handler changes the ice level. -/
theorem dispatch_iceLevel (h : Helpers) (k : Handler) (s : Session) (text : String)
    (hst : s.state ≠ "selecting_ice") :
    iceLevelOf (dispatch h k s text).session = iceLevelOf s := by
  cases k <;> simp only [dispatch, iceLevelOf]
  · rfl
  · unfold handleIceLevel; repeat' split
    all_goals simp
  · rcases levelSelection_cases h s text with hsame | ⟨p, c, c1, hp, hc, hres, -, -, -, hice⟩
    · rw [hsame]
    · rw [hres, show_customization, hc]
      simp only [Option.map_some', hice hst]
  · rw [handleAddOns_customization]
  · rcases toggle_cases h s text with hsame | ⟨p, available, a, c, hp, ha, hf, hc⟩
    · rw [hsame]
    · rw [toggle_accepted h s text p available a c hp ha hf hc, hc]; rfl
  · rfl
  · rcases quantitySelection_cases h s text with hsame | ⟨p, c, q, hp, hc, -, -, hres⟩
    · rw [hsame]
    · rw [hres, show_customization, hc]; rfl
  · unfold handleBackToCustomization; repeat' split
    all_goals simp

/-- Every handler keeps the quantity within 1..6. -/
theorem dispatch_quantityInRange (h : Helpers) (k : Handler) (s : Session) (text : String)
    (hq : quantityInRange s) : quantityInRange (dispatch h k s text).session := by
  obtain ⟨c, hc, h1, h6⟩ := hq
  cases k <;> simp only [dispatch, quantityInRange]
  · exact ⟨c, hc, h1, h6⟩
  · refine ⟨c, ?_, h1, h6⟩
    unfold handleIceLevel; repeat' split
    all_goals simp [hc]
  · rcases levelSelection_cases h s text with hsame | ⟨p, c2, c1, hp, hc2, hres, hqty, -⟩
    · rw [hsame]; exact ⟨c, hc, h1, h6⟩
    · rw [hc] at hc2
      cases hc2
      exact ⟨c1, by rw [hres, show_customization], hqty ▸ h1, hqty ▸ h6⟩
  · exact ⟨c, by rw [handleAddOns_customization, hc], h1, h6⟩
  · rcases toggle_cases h s text with hsame | ⟨p, available, a, c2, hp, ha, hf, hc2⟩
    · rw [hsame]; exact ⟨c, hc, h1, h6⟩
    · rw [toggle_accepted h s text p available a c2 hp ha hf hc2]
      rw [hc] at hc2
      cases hc2
      exact ⟨_, rfl, h1, h6⟩
  · exact ⟨c, hc, h1, h6⟩
  · rcases quantitySelection_cases h s text with hsame | ⟨p, c2, q, hp, hc2, hq1, hq6, hres⟩
    · rw [hsame]; exact ⟨c, hc, h1, h6⟩
    · exact ⟨_, by rw [hres, show_customization], hq1, hq6⟩
  · refine ⟨c, ?_, h1, h6⟩
    unfold handleBackToCustomization; repeat' split
    all_goals simp [hc]

/-- Along any sequence of calls, a session whose product does not take ice and
that starts outside `selecting_ice` stays outside it and keeps its ice level. -/
theorem runCalls_without_ice (h : Helpers) (calls : List (Handler × String)) (s : Session)
    (hst : s.state ≠ "selecting_ice")
    (hhot : ∀ p, s.currentProduct = some p → ¬ takesIce p) :
    (runCalls h s calls).state ≠ "selecting_ice" ∧
      iceLevelOf (runCalls h s calls) = iceLevelOf s := by
  induction calls generalizing s with
  | nil => exact ⟨hst, rfl⟩
  | cons call rest ih =>
    have hstep := dispatch_state_ice h call.1 s call.2 hst hhot
    have hprod := dispatch_currentProduct h call.1 s call.2
    have hice := dispatch_iceLevel h call.1 s call.2 hst
    obtain ⟨h1, h2⟩ := ih (dispatch h call.1 s call.2).session hstep
      (fun p hp => hhot p (hprod ▸ hp))
    exact ⟨h1, h2.trans hice⟩

/-- C2: for a session whose product has category `hot` and whose state is
`customizing`, every finite sequence of calls to the eight customization
handlers, with arbitrary message texts, leaves the ice level of the
customization equal to its initial value (and never reaches `selecting_ice`). -/
theorem hot_product_keeps_iceLevel (h : Helpers) (s : Session) (p : Product)
    (calls : List (Handler × String))
    (hp : s.currentProduct = some p) (hhot : p.category = "hot")
    (hst : s.state = "customizing") :
    iceLevelOf (runCalls h s calls) = iceLevelOf s ∧
      (runCalls h s calls).state ≠ "selecting_ice" := by
  have hne : s.state ≠ "selecting_ice" := by rw [hst]; decide
  have hno : ∀ q, s.currentProduct = some q → ¬ takesIce q := by
    intro q hq
    rw [hp] at hq
    cases hq
    unfold takesIce
    rw [hhot]
    decide
  exact ⟨(runCalls_without_ice h calls s hne hno).2, (runCalls_without_ice h calls s hne hno).1⟩

/-- C2 at a concrete input: on the latte session, asking for the ice menu and
then sending "High", "Low" through the level handler leaves the ice level
unset. -/
theorem hot_product_keeps_iceLevel_witness :
    iceLevelOf (runCalls sampleHelpers latteSession
        [(.iceLevel, "🧊 Ice Level"), (.levelSelection, "High"), (.sugarLevel, "Sugar"),
          (.levelSelection, "Low")]) = some none :=
  (hot_product_keeps_iceLevel sampleHelpers latteSession latte
    [(.iceLevel, "🧊 Ice Level"), (.levelSelection, "High"), (.sugarLevel, "Sugar"),
      (.levelSelection, "Low")] rfl rfl rfl).1

/-- C10: if the quantity of the customization is an integer from 1 to 6, it is
still one after `handleQuantitySelection` with any message text, after any other
customization handler, and after any finite sequence of them. -/
theorem quantity_stays_in_range (h : Helpers) (s : Session) (calls : List (Handler × String))
    (hq : quantityInRange s) : quantityInRange (runCalls h s calls) := by
  induction calls generalizing s with
  | nil => exact hq
  | cons call rest ih => exact ih _ (dispatch_quantityInRange h call.1 s call.2 hq)

/-- C10 at a concrete input: quantities "9", "4" and "0" sent to the latte
session, with an add-on toggle in between. -/
theorem quantity_stays_in_range_witness :
    quantityInRange latteSession ∧
      quantityInRange (runCalls sampleHelpers latteSession
        [(.quantitySelection, "9"), (.quantitySelection, "4"), (.addOnToggle, "➕ Extra Shot"),
          (.quantitySelection, "0")]) :=
  ⟨⟨freshCustomization, rfl, by decide, by decide⟩,
   quantity_stays_in_range sampleHelpers latteSession
     [(.quantitySelection, "9"), (.quantitySelection, "4"), (.addOnToggle, "➕ Extra Shot"),
       (.quantitySelection, "0")] ⟨freshCustomization, rfl, by decide, by decide⟩⟩

/-! ## Button labels and the origin of the selection -/

theorem stripMark_buttonLabel (selection : List AddOn) (a : AddOn) :
    stripMark (buttonLabel selection a) = a.name := by
  unfold buttonLabel markOf
  split
  · have hdata : ("✅" ++ " " ++ a.name).data =
        Char.ofNat 0x2705 :: ' ' :: a.name.data := rfl
    unfold stripMark
    rw [hdata]
    simp [isJsWhiteSpace]
  · have hdata : ("➕" ++ " " ++ a.name).data =
        Char.ofNat 0x2795 :: ' ' :: a.name.data := rfl
    unfold stripMark
    rw [hdata]
    simp [isJsWhiteSpace]

/-- An add-on whose name is unique within the product is the one found under
that name. -/
theorem find_unique (available : List AddOn) (a : AddOn) (name : String)
    (hmem : a ∈ available) (hname : a.name = name)
    (huniq : ∀ b ∈ available, b.name = a.name → b = a) :
    available.find? (fun x => decide (x.name = name)) = some a := by
  cases hfind : available.find? (fun x => decide (x.name = name)) with
  | none =>
    rw [List.find?_eq_none] at hfind
    exact absurd (by simpa using hname) (hfind a hmem)
  | some b =>
    have hb : b ∈ available := List.mem_of_find?_eq_some hfind
    have hbn : b.name = name := by simpa using List.find?_some hfind
    rw [huniq b hb (hbn.trans hname.symm)]

/-- The keyboard `handleAddOns` shows for a product with add-ons: one button
per add-on, labelled by `buttonLabel`, and the back button. -/
theorem handleAddOns_buttons (h : Helpers) (s : Session) (p : Product)
    (available : List AddOn) (c : Customization) (a : AddOn)
    (hp : s.currentProduct = some p) (ha : p.addOns = some available)
    (hc : s.customization = some c) (hmem : a ∈ available) :
    ∃ msg, (handleAddOns h s).effects =
      [.setState "selecting_addons",
       .replyKeyboard msg
        (available.map (fun x => [buttonLabel c.addOns x]) ++ [["⬅️ Back to Customization"]])] := by
  cases available with
  | nil => simp at hmem
  | cons x rest =>
    unfold handleAddOns
    simp only [hp, ha, hc]
    exact ⟨_, rfl⟩

/-- C14: for an add-on of the product whose name is unique within the product,
the label `handleAddOns` renders for it is `✅ ` and its name when its name is in
the selection and `➕ ` and its name otherwise; that label, sent as message text
to `handleAddOnToggle`, is resolved to that same add-on, which is then
toggled. -/
theorem button_label_round_trip (h : Helpers) (s : Session) (p : Product)
    (available : List AddOn) (c : Customization) (a : AddOn)
    (hp : s.currentProduct = some p) (ha : p.addOns = some available)
    (hc : s.customization = some c) (hmem : a ∈ available)
    (huniq : ∀ b ∈ available, b.name = a.name → b = a) :
    (∃ msg, (handleAddOns h s).effects =
      [.setState "selecting_addons",
       .replyKeyboard msg
        (available.map (fun x => [buttonLabel c.addOns x]) ++
          [["⬅️ Back to Customization"]])]) ∧
      [buttonLabel c.addOns a] ∈ available.map (fun x => [buttonLabel c.addOns x]) ∧
      buttonLabel c.addOns a =
        (if a.name ∈ selectedNames s then "✅" else "➕") ++ " " ++ a.name ∧
      available.find? (fun x => decide (x.name = stripMark (buttonLabel c.addOns a))) = some a ∧
      (handleAddOnToggle h s (buttonLabel c.addOns a)).session.customization =
        some { c with addOns := toggleSelection c.addOns a } := by
  have hfind : available.find?
      (fun x => decide (x.name = stripMark (buttonLabel c.addOns a))) = some a :=
    find_unique available a _ hmem (stripMark_buttonLabel c.addOns a).symm huniq
  refine ⟨handleAddOns_buttons h s p available c a hp ha hc hmem,
    List.mem_map.2 ⟨a, hmem, rfl⟩, ?_, hfind, ?_⟩
  · unfold buttonLabel markOf
    by_cases hsel : isSelected c.addOns a.name = true
    · have hin : a.name ∈ selectedNames s := by
        simp only [selectedNames, hc]
        exact (isSelected_iff c.addOns a.name).1 hsel
      simp only [hsel, hin, if_true]
    · have hout : a.name ∉ selectedNames s := by
        simp only [selectedNames, hc]
        exact fun hm => hsel ((isSelected_iff c.addOns a.name).2 hm)
      simp only [hsel, hout, if_false, Bool.false_eq_true]
  · rw [toggle_accepted h s _ p available a c hp ha hfind hc]

/-- C14 at a concrete input: "Whipped Cream" on the latte session after "Extra
Shot" was selected is rendered with the plus mark and resolves to itself. -/
theorem button_label_round_trip_witness :
    buttonLabel [extraShot] whippedCream = "➕ Whipped Cream" ∧
      [extraShot, whippedCream].find?
        (fun x => decide (x.name = stripMark (buttonLabel [extraShot] whippedCream)))
        = some whippedCream :=
  have key := button_label_round_trip sampleHelpers
    { latteSession with
      customization := some { freshCustomization with addOns := [extraShot] } }
    latte [extraShot, whippedCream] { freshCustomization with addOns := [extraShot] }
    whippedCream rfl rfl rfl (by decide) (by decide)
  ⟨by decide, key.2.2.2.1⟩

/-- C15: if every selected add-on carries the name of an add-on of the product
before `handleAddOnToggle`, the same holds after it, for every message text; and
a text that names no add-on of the product leaves the whole session, and so the
selection and the state, unchanged. -/
theorem handleAddOnToggle_selection_from_product (h : Helpers) (s : Session) (text : String) :
    (selectionFromProduct s → selectionFromProduct (handleAddOnToggle h s text).session) ∧
      ((¬ ∃ a ∈ productAddOns s, a.name = stripMark text) →
        (handleAddOnToggle h s text).session = s) := by
  rcases toggle_cases h s text with hsame | ⟨p, available, a, c, hp, ha, hf, hc⟩
  · rw [hsame]; exact ⟨id, fun _ => rfl⟩
  · have hmem : a ∈ available := List.mem_of_find?_eq_some hf
    have hname : a.name = stripMark text := by simpa using List.find?_some hf
    have hprod : productAddOns s = available := by
      simp only [productAddOns, hp, Option.some_bind, ha, Option.getD_some]
    constructor
    · intro hfrom
      rw [toggle_accepted h s text p available a c hp ha hf hc]
      intro n hn
      have hprod2 : productAddOns
          { state := "selecting_addons", currentProduct := some p,
            customization := some { c with addOns := toggleSelection c.addOns a } }
          = available := by
        simp only [productAddOns, Option.some_bind, ha, Option.getD_some]
      rw [hprod2]
      simp only [selectedNames, mem_names_toggleSelection] at hn
      by_cases hna : n = a.name
      · exact ⟨a, hmem, hna.symm⟩
      · simp only [hna, if_false] at hn
        have hold := hfrom n (by simpa only [selectedNames, hc] using hn)
        rwa [hprod] at hold
    · intro hno
      exact absurd ⟨a, hprod ▸ hmem, hname⟩ hno

/-- C15 at concrete inputs: a toggle of "Extra Shot" keeps the selection within
the add-ons of the latte, and the text "Caramel" changes nothing. -/
theorem handleAddOnToggle_selection_from_product_witness :
    selectionFromProduct (handleAddOnToggle sampleHelpers latteSession "➕ Extra Shot").session ∧
      (handleAddOnToggle sampleHelpers latteSession "Caramel").session = latteSession :=
  ⟨(handleAddOnToggle_selection_from_product sampleHelpers latteSession "➕ Extra Shot").1
      (by intro n hn; simp [selectedNames, latteSession, freshCustomization] at hn),
   (handleAddOnToggle_selection_from_product sampleHelpers latteSession "Caramel").2
      (by decide)⟩

/-! ## Sessions without a product -/

/-- Without a selected product the six handlers that look at the session leave
it as it was, and the two that do not leave the customization as it was. -/
theorem dispatch_without_product (h : Helpers) (k : Handler) (s : Session) (text : String)
    (hp : s.currentProduct = none) :
    (dispatch h k s text).session.customization = s.customization ∧
      (k ≠ .sugarLevel → k ≠ .quantity → (dispatch h k s text).session = s) := by
  cases k <;> simp only [dispatch]
  · exact ⟨rfl, fun hne => absurd rfl hne⟩
  · simp [handleIceLevel, hp]
  · simp [handleLevelSelection, hp]
  · simp [handleAddOns, hp]
  · simp [handleAddOnToggle, hp]
  · exact ⟨rfl, fun _ hne => absurd rfl hne⟩
  · simp [handleQuantitySelection, hp]
  · simp [handleBackToCustomization, hp]

/-- C16 fails in the code: on a session with no selected product
`handleSugarLevel` and `handleQuantity` do not look for a product and change the
state tag, to `selecting_sugar` and `selecting_quantity`. -/
theorem entry_handlers_ignore_missing_product :
    browsingSession.currentProduct = none ∧
      (handleSugarLevel browsingSession).session.state = "selecting_sugar" ∧
      (handleQuantity browsingSession).session.state = "selecting_quantity" ∧
      (handleSugarLevel browsingSession).session.state ≠ browsingSession.state ∧
      (handleQuantity browsingSession).session.state ≠ browsingSession.state ∧
      (handleIceLevel sampleHelpers browsingSession).session = browsingSession ∧
      (handleAddOns sampleHelpers browsingSession).session = browsingSession := by
  decide

/-! ## The seller scanner -/

theorem dropWhile_eq_nil_of_forall_mem (p : Char → Bool) (l : List Char)
    (hall : ∀ x ∈ l.dropWhile p, p x = true) : l.dropWhile p = [] := by
  induction l with
  | nil => rfl
  | cons a l ih =>
    by_cases ha : p a = true
    · rw [List.dropWhile_cons_of_pos ha] at hall ⊢
      exact ih hall
    · rw [List.dropWhile_cons_of_neg ha] at hall
      exact absurd (hall a (List.mem_cons_self a l)) ha

/-- A text trims to the empty string exactly when it is empty or all white
space. -/
theorem jsTrim_eq_empty_iff (text : String) :
    jsTrim text = "" ↔ text.data.all isJsWhiteSpace = true := by
  have hmk : ∀ l : List Char, String.mk l = "" ↔ l = [] := by
    intro l
    constructor
    · intro hl; exact congrArg String.data hl
    · intro hl; rw [hl]
  unfold jsTrim
  rw [hmk, List.reverse_eq_nil_iff, List.dropWhile_eq_nil_iff, List.all_eq_true]
  constructor
  · intro hall
    have hnil : text.data.dropWhile isJsWhiteSpace = [] :=
      dropWhile_eq_nil_of_forall_mem _ _ (fun x hx => hall x (List.mem_reverse.2 hx))
    exact List.dropWhile_eq_nil_iff.1 hnil
  · intro hall x hx
    rw [List.dropWhile_eq_nil_iff.2 hall] at hx
    simp at hx

theorem verifyRequests_stopCamera (r : Render) (st : ScannerState) :
    verifyRequests (stopCamera r st).2 = [] := by
  unfold stopCamera verifyRequests
  by_cases h1 : r.streamActive = true <;> by_cases h2 : st.intervalSet = true <;>
    simp [h1, h2]

theorem verificationView_stopCamera (r : Render) (st : ScannerState) :
    (stopCamera r st).1.verificationResult = st.verificationResult ∧
      (stopCamera r st).1.error = st.error := by
  unfold stopCamera
  by_cases h1 : r.streamActive = true <;> simp [h1]

/-- The requests `handleVerifyQR` sends, in whatever render it was created:
none for a text that trims to nothing, one with the trimmed text otherwise. -/
theorem verifyRequests_handleVerifyQR (verifyQR : String → VerifyOutcome) (r : Render)
    (st : ScannerState) (token : String) :
    verifyRequests (handleVerifyQR verifyQR r st token).2 =
      if jsTrim token = "" then [] else [jsTrim token] := by
  unfold handleVerifyQR
  by_cases hempty : jsTrim token = ""
  · simp only [hempty, if_true]; rfl
  · simp only [hempty, if_false]
    cases verifyQR (jsTrim token) with
    | rejected serverError => rfl
    | resolved response =>
      by_cases hscan : r.isScanning = true
      · simp only [hscan, if_true]
        have hstop := verifyRequests_stopCamera r
          { isScanning := st.isScanning, manualToken := "", verificationResult := some response,
            error := "", isLoading := true, scanMode := st.scanMode,
            streamActive := st.streamActive, intervalSet := st.intervalSet }
        unfold verifyRequests at hstop ⊢
        simp only [List.filterMap_append, hstop]
        rfl
      · simp only [hscan]
        rfl

/-- What `handleVerifyQR` leaves on show, in whatever render it was created and
whatever the token field holds. -/
theorem verificationView_handleVerifyQR (verifyQR : String → VerifyOutcome) (r : Render)
    (st : ScannerState) (token : String) :
    verificationView (handleVerifyQR verifyQR r st token).1 =
      if jsTrim token = "" then
        (st.verificationResult, "Please enter a QR token or scan a QR code", st.isLoading)
      else
        match verifyQR (jsTrim token) with
        | .resolved response => (some response, "", false)
        | .rejected serverError => (none, rejectionMessage serverError, false) := by
  unfold handleVerifyQR
  by_cases hempty : jsTrim token = ""
  · simp only [hempty, if_true]; rfl
  · simp only [hempty, if_false]
    cases verifyQR (jsTrim token) with
    | rejected serverError => rfl
    | resolved response =>
      by_cases hscan : r.isScanning = true
      · simp only [hscan, if_true]
        have hstop := verificationView_stopCamera r
          { isScanning := st.isScanning, manualToken := "", verificationResult := some response,
            error := "", isLoading := true, scanMode := st.scanMode,
            streamActive := st.streamActive, intervalSet := st.intervalSet }
        simp only [verificationView, hstop.1, hstop.2]
      · simp only [hscan]
        rfl

/-- The camera path never stops the camera: the `handleVerifyQR` it calls reads
`isScanning` as false. -/
theorem onFrameDecoded_keeps_scanning (verifyQR : String → VerifyOutcome)
    (startedStream : Bool) (st : ScannerState) (decoded : Option String) :
    (onFrameDecoded verifyQR startedStream st decoded).1.isScanning = st.isScanning ∧
      (onFrameDecoded verifyQR startedStream st decoded).1.streamActive = st.streamActive ∧
      ScannerEffect.stopTracks ∉ (onFrameDecoded verifyQR startedStream st decoded).2 ∧
      ScannerEffect.clearInterval ∉ (onFrameDecoded verifyQR startedStream st decoded).2 := by
  cases decoded with
  | none => simp [onFrameDecoded]
  | some data =>
    unfold onFrameDecoded handleVerifyQR
    by_cases hempty : jsTrim data = ""
    · simp [hempty]
    · simp only [hempty, if_false]
      cases verifyQR (jsTrim data) <;> simp

/-- The two paths differ in this: with the camera running, a manual submit
stops it after a successful verification and a decoded frame does not. -/
theorem manual_submit_stops_camera :
    (handleManualSubmit acceptingServer { scanningScanner with manualToken := "tok-42" }).1.isScanning
        = false ∧
      (onFrameDecoded acceptingServer false scanningScanner (some "tok-42")).1.isScanning
        = true := by
  decide

/-- C12: a string decoded by the camera and the same string entered by hand
are both handed to `handleVerifyQR` and are treated alike: the same
verification requests are sent and the same result, error and loading flag are
left on show.  On either path, and in whatever render `handleVerifyQR` was
created, no verification request is sent and the error is set when the string is
empty or all white space, and otherwise exactly one `verifyQR` request is sent,
carrying the string with the white space at both ends removed. -/
theorem scanner_paths_agree (verifyQR : String → VerifyOutcome) (startedStream : Bool)
    (st : ScannerState) (token : String) :
    verifyRequests (onFrameDecoded verifyQR startedStream st (some token)).2 =
        verifyRequests (handleManualSubmit verifyQR { st with manualToken := token }).2 ∧
      verificationView (onFrameDecoded verifyQR startedStream st (some token)).1 =
        verificationView (handleManualSubmit verifyQR { st with manualToken := token }).1 ∧
      (token.data.all isJsWhiteSpace = true →
        verifyRequests (onFrameDecoded verifyQR startedStream st (some token)).2 = [] ∧
        (onFrameDecoded verifyQR startedStream st (some token)).1.error =
          "Please enter a QR token or scan a QR code" ∧
        verifyRequests (handleManualSubmit verifyQR { st with manualToken := token }).2 = [] ∧
        (handleManualSubmit verifyQR { st with manualToken := token }).1.error =
          "Please enter a QR token or scan a QR code") ∧
      (token.data.all isJsWhiteSpace = false →
        verifyRequests (onFrameDecoded verifyQR startedStream st (some token)).2 =
          [jsTrim token] ∧
        verifyRequests (handleManualSubmit verifyQR { st with manualToken := token }).2 =
          [jsTrim token]) ∧
      (∀ r, verifyRequests (handleVerifyQR verifyQR r st token).2 =
        if token.data.all isJsWhiteSpace = true then [] else [jsTrim token]) := by
  have hcam : verifyRequests (onFrameDecoded verifyQR startedStream st (some token)).2 =
      if jsTrim token = "" then [] else [jsTrim token] :=
    verifyRequests_handleVerifyQR verifyQR _ st token
  have hman : verifyRequests (handleManualSubmit verifyQR { st with manualToken := token }).2 =
      if jsTrim token = "" then [] else [jsTrim token] :=
    verifyRequests_handleVerifyQR verifyQR _ { st with manualToken := token } token
  have hcamView : verificationView (onFrameDecoded verifyQR startedStream st (some token)).1 = _ :=
    verificationView_handleVerifyQR verifyQR _ st token
  have hmanView :
      verificationView (handleManualSubmit verifyQR { st with manualToken := token }).1 = _ :=
    verificationView_handleVerifyQR verifyQR _ { st with manualToken := token } token
  refine ⟨by rw [hcam, hman], by rw [hcamView, hmanView], ?_, ?_, ?_⟩
  · intro hws
    have hempty := (jsTrim_eq_empty_iff token).2 hws
    rw [hcam, hman, if_pos hempty]
    rw [if_pos hempty] at hcamView hmanView
    exact ⟨rfl, congrArg (fun v => v.2.1) hcamView, rfl, congrArg (fun v => v.2.1) hmanView⟩
  · intro hws
    have hne : ¬ jsTrim token = "" := by
      intro hempty
      rw [(jsTrim_eq_empty_iff token).1 hempty] at hws
      exact absurd hws (by decide)
    rw [hcam, hman, if_neg hne]
    exact ⟨rfl, rfl⟩
  · intro r
    rw [verifyRequests_handleVerifyQR]
    by_cases hempty : jsTrim token = ""
    · rw [if_pos hempty, if_pos ((jsTrim_eq_empty_iff token).1 hempty)]
    · rw [if_neg hempty, if_neg (fun hws => hempty ((jsTrim_eq_empty_iff token).2 hws))]

/-- C12 at concrete inputs: with the camera running, a decoded token with white
space around it is posted trimmed, once, and a blank string is not posted and
sets the error. -/
theorem scanner_paths_agree_witness :
    verifyRequests (onFrameDecoded acceptingServer true scanningScanner
        (some "  tok-42 \n")).2 = ["tok-42"] ∧
      verifyRequests (handleManualSubmit refusingServer
        { scanningScanner with manualToken := "  tok-42 \n" }).2 = ["tok-42"] ∧
      verifyRequests (onFrameDecoded acceptingServer true scanningScanner (some "   ")).2 = [] ∧
      (handleManualSubmit acceptingServer { idleScanner with manualToken := "   " }).1.error =
        "Please enter a QR token or scan a QR code" :=
  ⟨by
    have key := ((scanner_paths_agree acceptingServer true scanningScanner
      "  tok-42 \n").2.2.2.1 (by decide)).1
    rw [key]; decide,
   by
    have key := ((scanner_paths_agree refusingServer true scanningScanner
      "  tok-42 \n").2.2.2.1 (by decide)).2
    rw [key]; decide,
   ((scanner_paths_agree acceptingServer true scanningScanner "   ").2.2.1 (by decide)).1,
   ((scanner_paths_agree acceptingServer false idleScanner "   ").2.2.1 (by decide)).2.2.2⟩

/-! ## The seller routes -/

/-- C13 as stated fails: a request without a parsed body carries no user id,
yet it is answered with 500, not with 401, because the destructuring of
`req.body` throws inside the `try`; a lookup that throws is answered with 500 as
well. -/
theorem requireSeller_without_body_is_500 :
    carriedUserId none = none ∧
      requireSeller sampleUsers none = .respond 500 destructureMessage ∧
      requireSeller sampleUsers none ≠ .respond 401 "User ID required" ∧
      requireSeller sampleUsers (some { userId := some "?" }) =
        .respond 500 "Cast to ObjectId failed" := by
  decide

/-- C13, amended: `requireSeller` calls `next` exactly when the request has a
body that carries a user id, the lookup returns a user with that id, and the
role of that user is `seller` or `admin`.  Otherwise it does not call `next` and
answers 500 when the request has no body, 401 when the body carries no user id,
404 when the lookup finds no user, 403 when the role of the user found is
neither, and 500 when the lookup throws. -/
theorem requireSeller_gate (findById : String → Lookup) (body : Option RequestBody) :
    ((∃ u, requireSeller findById body = .next u) ↔
        ∃ id u, carriedUserId body = some id ∧ findById id = .found u ∧
          (u.role = some "seller" ∨ u.role = some "admin")) ∧
      (body = none → requireSeller findById body = .respond 500 destructureMessage) ∧
      (∀ b, body = some b → carriedUserId body = none →
        requireSeller findById body = .respond 401 "User ID required") ∧
      (∀ id, carriedUserId body = some id → findById id = .notFound →
        requireSeller findById body = .respond 404 "User not found") ∧
      (∀ id u, carriedUserId body = some id → findById id = .found u →
        ¬ (u.role = some "seller" ∨ u.role = some "admin") →
        requireSeller findById body =
          .respond 403 "Access denied. Seller privileges required.") ∧
      (∀ id message, carriedUserId body = some id → findById id = .failed message →
        requireSeller findById body = .respond 500 message) := by
  cases body with
  | none => simp [requireSeller, carriedUserId]
  | some b =>
    cases hb : b.userId with
    | none => simp [requireSeller, carriedUserId, hb]
    | some id =>
      by_cases hid : id = ""
      · simp [requireSeller, carriedUserId, hb, hid]
      · have hcar : carriedUserId (some b) = some id := by
          simp [carriedUserId, hb, hid]
        have hreq : requireSeller findById (some b) =
            (match findById id with
              | .failed message => .respond 500 message
              | .notFound => .respond 404 "User not found"
              | .found user =>
                if user.role ≠ some "seller" ∧ user.role ≠ some "admin" then
                  .respond 403 "Access denied. Seller privileges required."
                else .next user) := by
          simp only [requireSeller, hb, hid, if_false]
        rw [hcar, hreq]
        refine ⟨?_, fun hnone => absurd hnone (by simp), fun _ _ hnone => absurd hnone (by simp),
          ?_, ?_, ?_⟩
        · constructor
          · rintro ⟨u, hu⟩
            cases hlook : findById id with
            | failed message => rw [hlook] at hu; cases hu
            | notFound => rw [hlook] at hu; cases hu
            | found v =>
              by_cases hrole : v.role = some "seller" ∨ v.role = some "admin"
              · exact ⟨id, v, rfl, hlook, hrole⟩
              · rw [hlook] at hu
                simp only [if_pos (not_or.1 hrole)] at hu
                cases hu
          · rintro ⟨id1, u, hsame, hlook, hrole⟩
            cases hsame
            have hgood : ¬ (u.role ≠ some "seller" ∧ u.role ≠ some "admin") := by
              rintro ⟨h1, h2⟩
              exact hrole.elim h1 h2
            exact ⟨u, by rw [hlook]; simp only [if_neg hgood]⟩
        · intro id1 hsame hlook
          cases hsame
          rw [hlook]
        · intro id1 u hsame hlook hrole
          cases hsame
          rw [hlook]
          simp only [if_pos (not_or.1 hrole)]
        · intro id1 message hsame hlook
          cases hsame
          rw [hlook]

/-- C13, amended, at concrete inputs: a user whose document carries no role
gets 403, an unknown id 404, a body without a user id 401, no body 500. -/
theorem requireSeller_gate_witness :
    requireSeller sampleUsers (some { userId := some "u1" }) =
        .respond 403 "Access denied. Seller privileges required." ∧
      requireSeller sampleUsers (some { userId := some "u9" }) =
        .respond 404 "User not found" ∧
      requireSeller sampleUsers (some { userId := none }) = .respond 401 "User ID required" ∧
      requireSeller sampleUsers none = .respond 500 destructureMessage :=
  ⟨(requireSeller_gate sampleUsers (some { userId := some "u1" })).2.2.2.2.1 "u1"
      { id := "u1", role := none } (by decide) (by decide) (by decide),
   (requireSeller_gate sampleUsers (some { userId := some "u9" })).2.2.2.1 "u9"
      (by decide) (by decide),
   (requireSeller_gate sampleUsers (some { userId := none })).2.2.1 { userId := none } rfl
      (by decide),
   (requireSeller_gate sampleUsers none).2.1 rfl⟩

/-- With `$limit` placed before `$skip`, every page after the first is
empty. -/
theorem limitThenSkip_later_pages_empty (limit page : Nat) (docs : List OrderDoc)
    (hpage : 2 ≤ page) : limitThenSkip limit ((page - 1) * limit) docs = [] := by
  unfold limitThenSkip
  apply List.drop_eq_nil_of_le
  have hlen : (docs.take limit).length ≤ limit := by
    rw [List.length_take]; exact Nat.min_le_left _ _
  have hone : 1 ≤ page - 1 := by omega
  calc (docs.take limit).length ≤ limit := hlen
    _ = 1 * limit := (Nat.one_mul limit).symm
    _ ≤ (page - 1) * limit := Nat.mul_le_mul_right limit hone

/-- The first page is the one the claim describes. -/
theorem limitThenSkip_first_page (limit : Nat) (docs : List OrderDoc) :
    limitThenSkip limit ((1 - 1) * limit) docs = pageOf limit 1 docs := by
  simp [limitThenSkip, pageOf]

/-- C17 fails in the code: with four orders of the seller, limit 2 and page 2,
the route answers with no orders, while the third and fourth newest orders
exist and are the page the claim describes. -/
theorem getSellerOrders_second_page_empty :
    getSellerOrders sampleOrders "s1" (some "2") (some "2") = .orders [] ∧
      pageOf 2 2 (sortNewestFirst (matchSeller "s1" sampleOrders)) =
        [{ id := "o3", createdAt := 20, productSellerIds := ["s1"] },
         { id := "o4", createdAt := 10, productSellerIds := ["s1"] }] ∧
      getSellerOrders sampleOrders "s1" (some "2") (some "1") =
        .orders (pageOf 2 1 (sortNewestFirst (matchSeller "s1" sampleOrders))) := by
  decide

end CoffeeHybrid
